import Mathlib

/-!
Verification development for the `edgeclient` package of the ai-edge repository
(`cli/pkg/edgeclient/client.go`).

The package is sequential orchestration code over two remote clients: a model
registry (`modelregistry.Client`) and a pipeline engine (tekton clientset).
We embed each public operation as a pure Lean function over an environment
record `Env` holding the results of the remote calls; every operation returns
its outcome together with the list of remote calls it issued, in order.

Conventions of the embedding:
  * Go `map[string]interface \x7b\x7d` values become association lists
    (`ParamMap`); a `nil` map is `Option.none` where the distinction matters
    (assigning to a `nil` map panics in Go, reading from it does not).
  * Go errors become the inductive `GoError`; `fmt.Errorf("...: %w", err)`
    becomes `GoError.wrap`, `fmt.Errorf` without `%w` becomes `GoError.msg`,
    and the `modelregistry` sentinel errors (`ErrModelNotFound`,
    `ErrVersionNotFound`, `ErrFindModelVersion`, `ErrFindArtifact`) become
    `GoError.sentinel` with the sentinel's Go name; `errors.Is` becomes
    `errorsIs` (all call sites in the file target a sentinel).
  * The openapi getters (`GetId`, `GetName`, ...) that return "" for absent
    fields become plain `String` fields.
  * Go map iteration order is unspecified; the association list fixes one
    order.  No claim below depends on the order of map iteration.
-/

set_option linter.unusedVariables false

namespace EdgeClient

/-- An element of a Go `[]interface \x7b\x7d` slice: a string or anything else
(carrying its Go type name). -/
inductive IListElem where
  | str (s : String)
  | other (tag : String)
deriving DecidableEq, Repr

/-- Go `interface \x7b\x7d` values as they occur in the build-parameter maps of
`client.go`: strings, `[]interface \x7b\x7d` slices, `[]string` slices, and
anything else (carrying its Go type name, for `%T` error messages). -/
inductive GoValue where
  | str (s : String)
  | ilist (xs : List IListElem)
  | slist (xs : List String)
  | other (tag : String)
deriving DecidableEq, Repr

end EdgeClient

namespace EdgeClient

/-- The registry's metadata value representation (`openapi.MetadataValue`):
a string value or anything else (carrying a tag). -/
inductive MetadataValue where
  | str (s : String)
  | other (tag : String)
deriving DecidableEq, Repr

/-- Go errors as used in `client.go`: package sentinels, plain
`fmt.Errorf` messages, and `%w`-wrapping `fmt.Errorf` errors. -/
inductive GoError where
  | sentinel (name : String)
  | msg (s : String)
  | wrap (ctx : String) (inner : GoError)
deriving DecidableEq, Repr

/-- `errors.Is err target` for a sentinel `target` named `name`: true iff the
sentinel occurs in the unwrap chain of `err`. -/
def errorsIs : GoError → String → Bool
  | .sentinel n, target => n == target
  | .wrap _ inner, target => errorsIs inner target
  | .msg _, _ => false

/-- `e` equals `target` or wraps it (at any depth) via `%w`. -/
def errWraps : GoError → GoError → Bool
  | .wrap c inner, target => (GoError.wrap c inner == target) || errWraps inner target
  | e, target => e == target

end EdgeClient

namespace EdgeClient

/-- A parameter map (`map[string]interface \x7b\x7d`) as an association list. -/
abbrev ParamMap := List (String × GoValue)

/-- A metadata value map (`map[string]openapi.MetadataValue`). -/
abbrev MetaMap := List (String × MetadataValue)

/-- Go map read `m[k]`: the value at the first occurrence of `k`. -/
def lookupParam : ParamMap → String → Option GoValue
  | [], _ => none
  | p :: rest, k => if p.1 == k then some p.2 else lookupParam rest k

/-- Go map read on a metadata map. -/
def lookupMeta : MetaMap → String → Option MetadataValue
  | [], _ => none
  | p :: rest, k => if p.1 == k then some p.2 else lookupMeta rest k

/-- Go map assignment `m[k] = v`: replaces the value at `k`, or appends the
binding when `k` is absent. -/
def setParam (m : ParamMap) (k : String) (v : GoValue) : ParamMap :=
  if m.any (fun p => p.1 == k) then
    m.map (fun p => if p.1 == k then (k, v) else p)
  else m ++ [(k, v)]

/-- Modelled from the spec: `modelregistry.ToMetadataValueMap`, the half of the
"mapping layer converting between the registry's metadata representation and
pipeline parameters" that encodes a parameter map into the registry's metadata
representation.  Its Go source lives in the `modelregistry` package, which is
not among the files under review; we model it as the evident key-preserving
encoding that converts each string value and fails on a value it cannot
represent. -/
def ToMetadataValueMap : ParamMap → Except GoError MetaMap
  | [] => .ok []
  | (k, GoValue.str s) :: rest =>
    match ToMetadataValueMap rest with
    | .error e => .error e
    | .ok m => .ok ((k, MetadataValue.str s) :: m)
  | (k, _) :: _ => .error (.msg ("unsupported metadata value type for key " ++ k))

/-- Modelled from the spec: `modelregistry.FromMetadataValueMap`, the half of
the "mapping layer converting between the registry's metadata representation
and pipeline parameters" that decodes the registry's metadata representation
into a parameter map.  Its Go source lives in the `modelregistry` package,
which is not among the files under review; we model it as the evident
key-preserving decoding that converts each string value and fails on a value
it cannot represent. -/
def FromMetadataValueMap : MetaMap → Except GoError ParamMap
  | [] => .ok []
  | (k, MetadataValue.str s) :: rest =>
    match FromMetadataValueMap rest with
    | .error e => .error e
    | .ok m => .ok ((k, GoValue.str s) :: m)
  | (k, _) :: _ => .error (.msg ("unsupported metadata value for key " ++ k))

end EdgeClient

namespace EdgeClient

/-- A registered model as returned by the registry (`openapi.RegisteredModel`
viewed through its getters). -/
structure RegisteredModel where
  id : String
  name : String
  description : String
deriving DecidableEq, Repr

/-- A model version as returned by the registry (`openapi.ModelVersion`
viewed through its getters). -/
structure ModelVersion where
  id : String
  name : String
  customProperties : MetaMap
deriving DecidableEq, Repr

/-- A model version artifact as returned by the registry
(`openapi.Artifact`, read through `a.ModelArtifact.GetUri()`). -/
structure Artifact where
  name : String
  uri : String
deriving DecidableEq, Repr

/-- Modelled from the spec: the local transfer structure `Model`
("identifier, name, description"); its Go declaration is in a sibling file of
the `edgeclient` package not among the files under review, and its fields are
exactly the ones `client.go` populates. -/
structure Model where
  ID : String
  Name : String
  Description : String
deriving DecidableEq, Repr

/-- Modelled from the spec: the local transfer structure `ModelImage`
("model identifier, name, description, version string, build parameters
(key-value mapping), and a deployable-artifact reference (URI, possibly
empty)"); its Go declaration is in a sibling file of the `edgeclient` package
not among the files under review, and its fields are exactly the ones
`client.go` populates.  `BuildParams` defaults to the zero value, as a Go
struct literal omitting the field leaves it `nil`. -/
structure ModelImage where
  ModelID : String
  Name : String
  Description : String
  Version : String
  BuildParams : ParamMap := []
  URI : String
deriving DecidableEq, Repr

/-- Modelled from the spec: the local transfer structure `PipelineRun`
("name and namespace assigned by the orchestration platform upon creation");
its Go declaration is in a sibling file of the `edgeclient` package not among
the files under review, and its fields are exactly the ones `client.go`
populates. -/
structure PipelineRun where
  Name : String
  Namespace : String
deriving DecidableEq, Repr

/-- `tektonv1.ParamValue.Type`. -/
inductive ParamType where
  | string
  | array
deriving DecidableEq, Repr

/-- `tektonv1.ParamValue` (the fields `client.go` sets: Type, StringVal,
ArrayVal). -/
structure ParamValue where
  type : ParamType
  stringVal : String := ""
  arrayVal : List String := []
deriving DecidableEq, Repr

/-- `tektonv1.Param` (Name, Value). -/
structure TektonParam where
  Name : String
  Value : ParamValue
deriving DecidableEq, Repr

/-- The volume claim template of a workspace binding: the fields
`newPipelineRunObject` sets (access modes, requested storage). -/
structure PVCWorkspace where
  AccessModes : List String
  RequestsStorage : String
deriving DecidableEq, Repr

/-- `tektonv1.WorkspaceBinding` (the fields `newPipelineRunObject` sets). -/
structure WorkspaceBinding where
  Name : String
  VolumeClaimTemplate : Option PVCWorkspace := none
  SecretName : Option String := none
  ConfigMapName : Option String := none
deriving DecidableEq, Repr

/-- The `tektonv1.PipelineRun` object built by `newPipelineRunObject`
(the fields the function sets). -/
structure PipelineRunObject where
  Namespace : String
  GenerateName : String
  Labels : List (String × String)
  ServiceAccountName : String
  Params : List TektonParam
  PipelineRefName : String
  Workspaces : List WorkspaceBinding
deriving DecidableEq, Repr

/-- The pipeline-run resource as returned by the pipeline engine's creation
call (read through `GetName()` and `GetObjectMeta().GetNamespace()`). -/
structure CreatedPipelineRun where
  Name : String
  Namespace : String
deriving DecidableEq, Repr

end EdgeClient

namespace EdgeClient

/-- One remote call issued by the client, with its arguments. -/
inductive RemoteCall where
  | getRegisteredModels
  | getModelVersions (registeredModelID : String)
  | getModelVersionArtifacts (modelVersionID : String)
  | getRegisteredModelByID (id : String)
  | findModelVersion (registeredModelID name : String)
  | createModelVersion (registeredModelID name : String) (md : MetaMap)
  | updateModelVersion (modelVersionID : String) (md : MetaMap)
  | findModelVersionArtifact (modelVersionID name : String)
  | createModelArtifact (modelVersionID name description uri formatName formatVersion : String)
  | autoRegisterModelVersionArtifact
      (name description version artifactName uri formatName formatVersion : String) (md : MetaMap)
  | tektonCreate (ns : String) (pr : PipelineRunObject) (kubeConfig : String)
deriving DecidableEq, Repr

/-- The environment: the responses of the two remote services.  Each field
mirrors one method of `modelregistry.Client` (or, for `TektonCreate`, the
pipeline engine's resource-creation call) and is a pure function of the call's
arguments, so a repeated call returns the same response. -/
structure Env where
  GetRegisteredModels : Except GoError (List RegisteredModel)
  GetModelVersions : String → Except GoError (List ModelVersion)
  GetModelVersionArtifacts : String → Except GoError (List Artifact)
  GetRegisteredModelByID : String → Except GoError RegisteredModel
  FindModelVersion : String → String → Except GoError ModelVersion
  CreateModelVersion : String → String → MetaMap → Except GoError ModelVersion
  UpdateModelVersion : String → MetaMap → Except GoError ModelVersion
  FindModelVersionArtifact : String → String → Except GoError (Option Artifact)
  CreateModelArtifact :
    String → String → String → String → String → String → Except GoError Artifact
  AutoRegisterModelVersionArtifact :
    String → String → String → String → String → String → String → MetaMap →
      Except GoError (RegisteredModel × ModelVersion × Artifact)
  TektonCreate : String → PipelineRunObject → String → Except GoError CreatedPipelineRun

/-- The error (if any) the environment answers to a given remote call. -/
def callErr (env : Env) : RemoteCall → Option GoError
  | .getRegisteredModels =>
    match env.GetRegisteredModels with | .error e => some e | .ok _ => none
  | .getModelVersions i =>
    match env.GetModelVersions i with | .error e => some e | .ok _ => none
  | .getModelVersionArtifacts i =>
    match env.GetModelVersionArtifacts i with | .error e => some e | .ok _ => none
  | .getRegisteredModelByID i =>
    match env.GetRegisteredModelByID i with | .error e => some e | .ok _ => none
  | .findModelVersion i n =>
    match env.FindModelVersion i n with | .error e => some e | .ok _ => none
  | .createModelVersion i n md =>
    match env.CreateModelVersion i n md with | .error e => some e | .ok _ => none
  | .updateModelVersion i md =>
    match env.UpdateModelVersion i md with | .error e => some e | .ok _ => none
  | .findModelVersionArtifact i n =>
    match env.FindModelVersionArtifact i n with | .error e => some e | .ok _ => none
  | .createModelArtifact i n d u f fv =>
    match env.CreateModelArtifact i n d u f fv with | .error e => some e | .ok _ => none
  | .autoRegisterModelVersionArtifact n d v an u f fv md =>
    match env.AutoRegisterModelVersionArtifact n d v an u f fv md with
    | .error e => some e | .ok _ => none
  | .tektonCreate ns pr kc =>
    match env.TektonCreate ns pr kc with | .error e => some e | .ok _ => none

/-- The outcome of one Go function call: a normal return value, a non-nil
error (with the Go result `nil`), or a run-time panic. -/
inductive Outcome (α : Type) where
  | ok (a : α)
  | err (e : GoError)
  | panicked
deriving DecidableEq, Repr

end EdgeClient

namespace EdgeClient

/-- Prepend already-issued calls to the trace of a continuation's result
(used where a Go method returns another method's result directly). -/
def withTrace {α : Type} (pre : List RemoteCall) :
    Outcome α × List RemoteCall → Outcome α × List RemoteCall
  | (r, tr) => (r, pre ++ tr)

/-- `GetModels` (client.go:56): list the registry's registered models and map
each to a local `Model`. -/
def GetModels (env : Env) : Outcome (List Model) × List RemoteCall :=
  match env.GetRegisteredModels with
  | .error e => (.err (.wrap "failed to get models" e), [.getRegisteredModels])
  | .ok models =>
    (.ok (models.map fun m =>
      { ID := m.id, Name := m.name, Description := m.description }),
     [.getRegisteredModels])

/-- `AddNewModelWithImage` (client.go:74): validate, flag the parameters as
edge compatible, convert them and auto-register model, version, artifact. -/
def AddNewModelWithImage (env : Env) (modelName modelDescription modelVersion uri : String)
    (parameters : Option ParamMap) : Outcome ModelImage × List RemoteCall :=
  if modelName = "" ∨ modelDescription = "" ∨ modelVersion = "" then
    (.err (.msg "model name, description, version, and URI are required"), [])
  else
    match parameters with
    | none =>
      -- Go: `parameters["edgeCompatible"] = "true"` assigns to an entry of a
      -- nil map, which panics at run time.
      (.panicked, [])
    | some p0 =>
      let p := setParam p0 "edgeCompatible" (.str "true")
      match ToMetadataValueMap p with
      | .error e => (.err (.wrap "failed to add model image" e), [])
      | .ok md =>
        match env.AutoRegisterModelVersionArtifact
            modelName modelDescription modelVersion modelName uri "ContainerImage" "" md with
        | .error e =>
          (.err (.wrap "failed to add model image" e),
           [.autoRegisterModelVersionArtifact
              modelName modelDescription modelVersion modelName uri "ContainerImage" "" md])
        | .ok (m, v, a) =>
          (.ok { ModelID := m.id, Name := m.name, Description := m.description,
                 Version := v.name, URI := a.uri },
           [.autoRegisterModelVersionArtifact
              modelName modelDescription modelVersion modelName uri "ContainerImage" "" md])

/-- The inner loop of `GetModelImages` (client.go:124): for each version of a
model, fetch its artifacts, decode its custom properties and emit one
`ModelImage` per artifact (or a single entry with empty URI when the version
has no artifacts). -/
def getModelImagesForVersions (env : Env) (m : RegisteredModel) :
    List ModelVersion → Outcome (List ModelImage) × List RemoteCall
  | [] => (.ok [], [])
  | v :: rest =>
    match env.GetModelVersionArtifacts v.id with
    | .error e =>
      if errorsIs e "ErrVersionNotFound" then
        (.err (.msg ("failed to get model images: can't find model version with id " ++ v.id)),
         [.getModelVersionArtifacts v.id])
      else
        (.err (.wrap "failed to get model images" e), [.getModelVersionArtifacts v.id])
    | .ok artifacts =>
      match FromMetadataValueMap v.customProperties with
      | .error e => (.err (.wrap "failed to get model images" e), [.getModelVersionArtifacts v.id])
      | .ok params =>
        let entries :=
          if artifacts.length > 0 then
            artifacts.map fun a =>
              ({ ModelID := m.id, Name := m.name, Description := m.description,
                 Version := v.name, BuildParams := params, URI := a.uri } : ModelImage)
          else
            [{ ModelID := m.id, Name := m.name, Description := m.description,
               Version := v.name, BuildParams := params, URI := "" }]
        match getModelImagesForVersions env m rest with
        | (.ok more, tr) => (.ok (entries ++ more), .getModelVersionArtifacts v.id :: tr)
        | (.err e, tr) => (.err e, .getModelVersionArtifacts v.id :: tr)
        | (.panicked, tr) => (.panicked, .getModelVersionArtifacts v.id :: tr)

/-- The outer loop of `GetModelImages` (client.go:116): for each registered
model, fetch its versions and run the inner loop. -/
def getModelImagesForModels (env : Env) :
    List RegisteredModel → Outcome (List ModelImage) × List RemoteCall
  | [] => (.ok [], [])
  | m :: rest =>
    match env.GetModelVersions m.id with
    | .error e =>
      if errorsIs e "ErrModelNotFound" then
        (.err (.msg ("failed to get model images: can't find model with id " ++ m.id)),
         [.getModelVersions m.id])
      else
        (.err (.wrap "failed to get model images" e), [.getModelVersions m.id])
    | .ok versions =>
      match getModelImagesForVersions env m versions with
      | (.ok entries, vtr) =>
        match getModelImagesForModels env rest with
        | (.ok more, rtr) => (.ok (entries ++ more), .getModelVersions m.id :: (vtr ++ rtr))
        | (.err e, rtr) => (.err e, .getModelVersions m.id :: (vtr ++ rtr))
        | (.panicked, rtr) => (.panicked, .getModelVersions m.id :: (vtr ++ rtr))
      | (.err e, vtr) => (.err e, .getModelVersions m.id :: vtr)
      | (.panicked, vtr) => (.panicked, .getModelVersions m.id :: vtr)

/-- `GetModelImages` (client.go:110): list registered models and flatten their
versions and artifacts into `ModelImage` entries. -/
def GetModelImages (env : Env) : Outcome (List ModelImage) × List RemoteCall :=
  match env.GetRegisteredModels with
  | .error e => (.err (.wrap "failed to get model images" e), [.getRegisteredModels])
  | .ok models =>
    match getModelImagesForModels env models with
    | (r, tr) => (r, .getRegisteredModels :: tr)

/-- The common tail of `ensureVersionIsInModelRegistry` (client.go:296):
decode the (found, created, or updated) version's custom properties and return
them alongside the version. -/
def ensureVersionFinish (v : ModelVersion) (tr : List RemoteCall) :
    Outcome (ModelVersion × ParamMap) × List RemoteCall :=
  match FromMetadataValueMap v.customProperties with
  | .error e => (.err (.wrap "failed to ensure version is in model registry" e), tr)
  | .ok md => (.ok (v, md), tr)

/-- `ensureVersionIsInModelRegistry` (client.go:259): look up the version; on
the find-model-version sentinel create it from the parameters (if provided),
on success with parameters update it, and return the version together with the
parameters decoded from its custom properties. -/
def ensureVersionIsInModelRegistry (env : Env)
    (registeredModelID modelVersionName : String) (parameters : Option ParamMap) :
    Outcome (ModelVersion × ParamMap) × List RemoteCall :=
  match env.FindModelVersion registeredModelID modelVersionName with
  | .error e =>
    if errorsIs e "ErrFindModelVersion" then
      match parameters with
      | none =>
        (.err (.msg "model version not found and no parameters provided"),
         [.findModelVersion registeredModelID modelVersionName])
      | some p0 =>
        let p := setParam p0 "edgeCompatible" (.str "true")
        match ToMetadataValueMap p with
        | .error e2 =>
          (.err (.wrap "failed to ensure version is in model registry" e2),
           [.findModelVersion registeredModelID modelVersionName])
        | .ok md =>
          match env.CreateModelVersion registeredModelID modelVersionName md with
          | .error e3 =>
            (.err (.wrap "failed to ensure version is in model registry" e3),
             [.findModelVersion registeredModelID modelVersionName,
              .createModelVersion registeredModelID modelVersionName md])
          | .ok v =>
            ensureVersionFinish v
              [.findModelVersion registeredModelID modelVersionName,
               .createModelVersion registeredModelID modelVersionName md]
    else
      (.err (.wrap "failed to ensure version is in model registry" e),
       [.findModelVersion registeredModelID modelVersionName])
  | .ok v0 =>
    match parameters with
    | some p0 =>
      let p := setParam p0 "edgeCompatible" (.str "true")
      match ToMetadataValueMap p with
      | .error e2 =>
        (.err (.wrap "failed to ensure version is in model registry" e2),
         [.findModelVersion registeredModelID modelVersionName])
      | .ok md =>
        match env.UpdateModelVersion v0.id md with
        | .error e3 =>
          (.err (.wrap "failed to ensure version is in model registry" e3),
           [.findModelVersion registeredModelID modelVersionName,
            .updateModelVersion v0.id md])
        | .ok v =>
          ensureVersionFinish v
            [.findModelVersion registeredModelID modelVersionName,
             .updateModelVersion v0.id md]
    | none =>
      ensureVersionFinish v0 [.findModelVersion registeredModelID modelVersionName]

/-- `ensureArtifactIsInModelRegistry` (client.go:303): look up the version
artifact; on the find-artifact sentinel create it (with empty URI), and treat
a nil artifact on success as an error. -/
def ensureArtifactIsInModelRegistry (env : Env)
    (modelVersionID artifactName description modelFormatName modelFormatVersion : String) :
    Outcome Unit × List RemoteCall :=
  match env.FindModelVersionArtifact modelVersionID artifactName with
  | .error e =>
    if errorsIs e "ErrFindArtifact" then
      match env.CreateModelArtifact
          modelVersionID artifactName description "" modelFormatName modelFormatVersion with
      | .error e2 =>
        (.err (.wrap "failed to ensure artifact is in model registry" e2),
         [.findModelVersionArtifact modelVersionID artifactName,
          .createModelArtifact modelVersionID artifactName description ""
            modelFormatName modelFormatVersion])
      | .ok _ =>
        (.ok (),
         [.findModelVersionArtifact modelVersionID artifactName,
          .createModelArtifact modelVersionID artifactName description ""
            modelFormatName modelFormatVersion])
    else
      (.err (.wrap "failed to ensure artifact is in model registry" e),
       [.findModelVersionArtifact modelVersionID artifactName])
  | .ok none =>
    (.err (.msg "failed to ensure artifact is in model registry: artifact not found"),
     [.findModelVersionArtifact modelVersionID artifactName])
  | .ok (some _) => (.ok (), [.findModelVersionArtifact modelVersionID artifactName])

/-- `ensureResourcesAreInModelRegistry` (client.go:236): fetch the model,
ensure the version, ensure the artifact, and return the decoded parameters. -/
def ensureResourcesAreInModelRegistry (env : Env)
    (registeredModelID modelVersionName : String) (parameters : Option ParamMap) :
    Outcome ParamMap × List RemoteCall :=
  match env.GetRegisteredModelByID registeredModelID with
  | .error e =>
    if errorsIs e "ErrModelNotFound" then
      (.err (.wrap "model not found." e), [.getRegisteredModelByID registeredModelID])
    else
      (.err (.wrap "failed to ensure resources are in model registry" e),
       [.getRegisteredModelByID registeredModelID])
  | .ok model =>
    match ensureVersionIsInModelRegistry env registeredModelID modelVersionName parameters with
    | (.err e, vtr) =>
      (.err (.wrap "failed to ensure resources are in model registry" e),
       .getRegisteredModelByID registeredModelID :: vtr)
    | (.panicked, vtr) => (.panicked, .getRegisteredModelByID registeredModelID :: vtr)
    | (.ok (v, outParams), vtr) =>
      match ensureArtifactIsInModelRegistry env v.id model.name model.description
          "ContainerImage" "" with
      | (.err e, atr) =>
        (.err (.wrap "failed to ensure resources are in model registry" e),
         .getRegisteredModelByID registeredModelID :: (vtr ++ atr))
      | (.panicked, atr) =>
        (.panicked, .getRegisteredModelByID registeredModelID :: (vtr ++ atr))
      | (.ok _, atr) =>
        (.ok outParams, .getRegisteredModelByID registeredModelID :: (vtr ++ atr))

/-- `UpdateModelImage` (client.go:179): validate and reconcile version and
artifact through `ensureResourcesAreInModelRegistry`. -/
def UpdateModelImage (env : Env) (registeredModelID modelVersionName : String)
    (parameters : Option ParamMap) : Outcome ParamMap × List RemoteCall :=
  if registeredModelID = "" ∨ modelVersionName = "" then
    (.err (.msg "registered model ID and model version name required"), [])
  else
    ensureResourcesAreInModelRegistry env registeredModelID modelVersionName parameters

end EdgeClient

namespace EdgeClient

/-- `tektonv1.NewStructuredValues s`: a string-typed parameter value. -/
def NewStructuredValues (s : String) : ParamValue :=
  { type := .string, stringVal := s }

/-- Collect the strings of a `[]interface \x7b\x7d` parameter value
(client.go:451), failing on a non-string element with the source's message
(including its misspelling of "parameter"). -/
def ilistStrings (k : String) : List IListElem → Except GoError (List String)
  | [] => .ok []
  | IListElem.str s :: rest =>
    match ilistStrings k rest with
    | .error e => .error e
    | .ok xs => .ok (s :: xs)
  | IListElem.other tag :: _ =>
    .error (.msg ("paramater " ++ k ++ " has unsupported type " ++ tag))

/-- Convert one parameter value to a `tektonv1.ParamValue` (client.go:446),
failing on unsupported types with the source's message. -/
def goValueToParamValue (k : String) : GoValue → Except GoError ParamValue
  | .str s => .ok (NewStructuredValues s)
  | .ilist xs =>
    match ilistStrings k xs with
    | .error e => .error e
    | .ok ss => .ok { type := .array, arrayVal := ss }
  | .slist ss => .ok { type := .array, arrayVal := ss }
  | .other tag => .error (.msg ("paramater " ++ k ++ " has unsupported type " ++ tag))

/-- The loop of `toTektonParams` (client.go:445): convert each map entry in
iteration order, stopping at the first unsupported value. -/
def toTektonParamsAux : List (String × GoValue) → Except GoError (List TektonParam)
  | [] => .ok []
  | (k, v) :: rest =>
    match goValueToParamValue k v with
    | .error e => .error e
    | .ok pv =>
      match toTektonParamsAux rest with
      | .error e => .error e
      | .ok ps => .ok ({ Name := k, Value := pv } :: ps)

/-- `toTektonParams` (client.go:434): the fixed `model-name` and
`model-version` parameters followed by the converted map entries. -/
def toTektonParams (modelName modelVersion : String) (parameters : ParamMap) :
    Except GoError (List TektonParam) :=
  match toTektonParamsAux parameters with
  | .error e => .error e
  | .ok ps =>
    .ok ({ Name := "model-name", Value := NewStructuredValues modelName } ::
         { Name := "model-version", Value := NewStructuredValues modelVersion } :: ps)

/-- `newPipelineRunObject` (client.go:376): the pipeline-run resource
submitted to the pipeline engine. -/
def newPipelineRunObject (modelName ns : String) (params : List TektonParam)
    (s3SecretName testDataConfigMapName : String) : PipelineRunObject :=
  { Namespace := ns
    GenerateName := "aiedge-e2e-" ++ modelName ++ "-"
    Labels := [("tekton.dev/pipeline", "aiedge-e2e"), ("model-name", modelName)]
    ServiceAccountName := "pipeline"
    Params := params
    PipelineRefName := "aiedge-e2e"
    Workspaces :=
      [{ Name := "build-workspace-pv",
         VolumeClaimTemplate :=
           some { AccessModes := ["ReadWriteOnce"], RequestsStorage := "1Gi" } },
       { Name := "s3-secret", SecretName := some s3SecretName },
       { Name := "test-data", ConfigMapName := some testDataConfigMapName }] }

/-- `CreatePipelineRun` (client.go:326): require the `s3SecretName` and
`testDataConfigMapName` string parameters, convert the parameter map, build
the pipeline-run object and submit it once to the pipeline engine with the
supplied kubeconfig, returning the name and namespace the platform assigned.
(Go reads of a possibly-nil map do not panic, so the map argument is a plain
association list here.) -/
def CreatePipelineRun (env : Env) (modelName modelVersion ns kubeConfig : String)
    (parameters : ParamMap) : Outcome PipelineRun × List RemoteCall :=
  match lookupParam parameters "s3SecretName" with
  | none => (.err (.msg "s3SecretName pipeline parameter is required"), [])
  | some s3v =>
    match s3v with
    | .str s3SecretName =>
      match lookupParam parameters "testDataConfigMapName" with
      | none => (.err (.msg "testDataConfigMapName pipeline parameter is required"), [])
      | some tdv =>
        match tdv with
        | .str testDataConfigMapName =>
          match toTektonParams modelName modelVersion parameters with
          | .error e => (.err (.wrap "failed to convert parameters to tekton params" e), [])
          | .ok params =>
            let pipelineRun :=
              newPipelineRunObject modelName ns params s3SecretName testDataConfigMapName
            match env.TektonCreate ns pipelineRun kubeConfig with
            | .error e =>
              (.err (.wrap "failed to create pipeline run" e),
               [.tektonCreate ns pipelineRun kubeConfig])
            | .ok created =>
              (.ok { Name := created.Name, Namespace := created.Namespace },
               [.tektonCreate ns pipelineRun kubeConfig])
        | _ => (.err (.msg "testDataConfigMapName pipeline parameter must be a string"), [])
    | _ => (.err (.msg "s3SecretName pipeline parameter must be a string"), [])

/-- `BuildModelImage` (client.go:203): validate, fetch the model and version,
fall back to the version's custom properties when no parameters were given,
and delegate to `CreatePipelineRun`. -/
def BuildModelImage (env : Env) (modelID modelVersion ns kubeConfig : String)
    (parameters : Option ParamMap) : Outcome PipelineRun × List RemoteCall :=
  if modelID = "" ∨ modelVersion = "" ∨ ns = "" ∨ kubeConfig = "" then
    (.err (.msg "model ID, model version, namespace, and kubeconfig are required"), [])
  else
    match env.GetRegisteredModelByID modelID with
    | .error e => (.err (.wrap "failed to build model image" e), [.getRegisteredModelByID modelID])
    | .ok m =>
      match env.FindModelVersion modelID modelVersion with
      | .error e =>
        (.err (.wrap "failed to build model image" e),
         [.getRegisteredModelByID modelID, .findModelVersion modelID modelVersion])
      | .ok v =>
        match parameters with
        | some ps =>
          withTrace [.getRegisteredModelByID modelID, .findModelVersion modelID modelVersion]
            (CreatePipelineRun env m.name modelVersion ns kubeConfig ps)
        | none =>
          match FromMetadataValueMap v.customProperties with
          | .error e =>
            (.err (.wrap "failed to build model image" e),
             [.getRegisteredModelByID modelID, .findModelVersion modelID modelVersion])
          | .ok ps =>
            withTrace [.getRegisteredModelByID modelID, .findModelVersion modelID modelVersion]
              (CreatePipelineRun env m.name modelVersion ns kubeConfig ps)

end EdgeClient

namespace EdgeClient

/-- True iff the error carries one of the four `modelregistry` sentinel
"not found" conditions in its unwrap chain. -/
def isSentinelErr (e : GoError) : Bool :=
  errorsIs e "ErrModelNotFound" || errorsIs e "ErrVersionNotFound" ||
  errorsIs e "ErrFindModelVersion" || errorsIs e "ErrFindArtifact"

/-- The sentinel branches of `GetModelImages`: a versions lookup failing with
the model-not-found sentinel, or an artifacts lookup failing with the
version-not-found sentinel. -/
def giSentinel : RemoteCall → GoError → Bool
  | .getModelVersions _, e => errorsIs e "ErrModelNotFound"
  | .getModelVersionArtifacts _, e => errorsIs e "ErrVersionNotFound"
  | _, _ => false

/-- Every remote call in the trace succeeded. -/
def AllOk (env : Env) (tr : List RemoteCall) : Prop :=
  ∀ c ∈ tr, callErr env c = none

/-- Every failing remote call in the trace failed with a sentinel "not found"
condition. -/
def OkOrSentinel (env : Env) (tr : List RemoteCall) : Prop :=
  ∀ c ∈ tr, ∀ e, callErr env c = some e → isSentinelErr e = true

/-- The number of times a remote call (with identical arguments) occurs in a
trace. -/
def countCall (c : RemoteCall) : List RemoteCall → Nat
  | [] => 0
  | d :: tl => (if d = c then 1 else 0) + countCall c tl

/-- The last remote call of a trace. -/
def lastCall : List RemoteCall → Option RemoteCall
  | [] => none
  | [c] => some c
  | _ :: d :: tl => lastCall (d :: tl)

/-- The call discipline of a trace: every failing remote call was attempted
exactly once (never re-issued), and unless it failed with a sentinel "not
found" condition it was the last remote call made. -/
def TraceDiscipline (env : Env) (tr : List RemoteCall) : Prop :=
  ∀ c ∈ tr, ∀ e, callErr env c = some e →
    countCall c tr = 1 ∧ (isSentinelErr e = true ∨ lastCall tr = some c)

/-- The metadata map submitted by a version-writing remote call, if the call
is one (create version, update version, auto-register). -/
def versionWriteMeta : RemoteCall → Option MetaMap
  | .createModelVersion _ _ md => some md
  | .updateModelVersion _ md => some md
  | .autoRegisterModelVersionArtifact _ _ _ _ _ _ _ md => some md
  | _ => none

/-- The remote calls `UpdateModelImage`'s reconcile sequence may issue:
model fetch, version find/create/update, artifact find/create.  No delete or
other compensating call is among them. -/
def isModelRegistryReconcileCall : RemoteCall → Bool
  | .getRegisteredModelByID _ => true
  | .findModelVersion _ _ => true
  | .createModelVersion _ _ _ => true
  | .updateModelVersion _ _ => true
  | .findModelVersionArtifact _ _ => true
  | .createModelArtifact _ _ _ _ _ _ => true
  | _ => false

/-- The remote calls `BuildModelImage` may issue. -/
def isBuildImageCall : RemoteCall → Bool
  | .getRegisteredModelByID _ => true
  | .findModelVersion _ _ => true
  | .tektonCreate _ _ _ => true
  | _ => false

/-- The remote calls `ensureVersionIsInModelRegistry` may issue. -/
def isVersionEnsureCall : RemoteCall → Bool
  | .findModelVersion _ _ => true
  | .createModelVersion _ _ _ => true
  | .updateModelVersion _ _ => true
  | _ => false

/-- The remote calls `ensureArtifactIsInModelRegistry` may issue. -/
def isArtifactEnsureCall : RemoteCall → Bool
  | .findModelVersionArtifact _ _ => true
  | .createModelArtifact _ _ _ _ _ _ => true
  | _ => false

/-- The remote calls `GetModelImages` may issue (all read-only). -/
def isGetImagesCall : RemoteCall → Bool
  | .getRegisteredModels => true
  | .getModelVersions _ => true
  | .getModelVersionArtifacts _ => true
  | _ => false

end EdgeClient

namespace EdgeClient

/-- A baseline environment in which every remote call fails with a plain
(non-sentinel) error. -/
def env0 : Env where
  GetRegisteredModels := .error (.msg "remote unavailable")
  GetModelVersions := fun _ => .error (.msg "remote unavailable")
  GetModelVersionArtifacts := fun _ => .error (.msg "remote unavailable")
  GetRegisteredModelByID := fun _ => .error (.msg "remote unavailable")
  FindModelVersion := fun _ _ => .error (.msg "remote unavailable")
  CreateModelVersion := fun _ _ _ => .error (.msg "remote unavailable")
  UpdateModelVersion := fun _ _ => .error (.msg "remote unavailable")
  FindModelVersionArtifact := fun _ _ => .error (.msg "remote unavailable")
  CreateModelArtifact := fun _ _ _ _ _ _ => .error (.msg "remote unavailable")
  AutoRegisterModelVersionArtifact := fun _ _ _ _ _ _ _ _ => .error (.msg "remote unavailable")
  TektonCreate := fun _ _ _ => .error (.msg "remote unavailable")

/-- A sample registered model. -/
def rm1 : RegisteredModel := { id := "m1", name := "model-one", description := "a model" }

/-- A sample model version whose custom properties decode successfully. -/
def mv1 : ModelVersion :=
  { id := "v-id-1", name := "1.0", customProperties := [("edgeCompatible", .str "true")] }

/-- A sample model version artifact. -/
def art1 : Artifact := { name := "model-one", uri := "quay.io/example/model:1" }

/-- A sample parameter map containing the two pipeline-required entries. -/
def pParams : ParamMap :=
  [("s3SecretName", .str "s3cred"), ("testDataConfigMapName", .str "testdata")]

/-- Environment for the create path: the model exists, the version lookup
fails with the find-model-version sentinel, creation succeeds (the registry
stores the submitted metadata), and the artifact exists. -/
def envCreatePath : Env :=
  { env0 with
    GetRegisteredModelByID := fun _ => .ok rm1
    FindModelVersion := fun _ _ => .error (.sentinel "ErrFindModelVersion")
    CreateModelVersion := fun _ n md => .ok { id := "v-id-1", name := n, customProperties := md }
    FindModelVersionArtifact := fun _ _ => .ok (some art1) }

/-- Environment for the update path: the model and version exist, the update
succeeds (the registry stores the submitted metadata), and the artifact
exists. -/
def envUpdatePath : Env :=
  { env0 with
    GetRegisteredModelByID := fun _ => .ok rm1
    FindModelVersion := fun _ _ => .ok mv1
    UpdateModelVersion := fun i md => .ok { id := i, name := "1.0", customProperties := md }
    FindModelVersionArtifact := fun _ _ => .ok (some art1) }

/-- Environment in which the model exists but the version lookup fails with
the find-model-version sentinel and nothing else is available. -/
def envVersionMissing : Env :=
  { env0 with
    GetRegisteredModelByID := fun _ => .ok rm1
    FindModelVersion := fun _ _ => .error (.sentinel "ErrFindModelVersion") }

/-- Environment in which listing models succeeds but every versions lookup
fails with the model-not-found sentinel. -/
def envModelsGone : Env :=
  { env0 with
    GetRegisteredModels := .ok [rm1]
    GetModelVersions := fun _ => .error (.sentinel "ErrModelNotFound") }

/-- A fully healthy environment: one model, one version, one artifact. -/
def envHappy : Env :=
  { env0 with
    GetRegisteredModels := .ok [rm1]
    GetModelVersions := fun _ => .ok [mv1]
    GetModelVersionArtifacts := fun _ => .ok [art1]
    GetRegisteredModelByID := fun _ => .ok rm1
    FindModelVersion := fun _ _ => .ok mv1
    FindModelVersionArtifact := fun _ _ => .ok (some art1)
    TektonCreate := fun _ _ _ =>
      .ok { Name := "aiedge-e2e-model-one-abc12", Namespace := "edge-ns" } }

/-- Environment in which only the model fetch succeeds. -/
def envModelOnly : Env := { env0 with GetRegisteredModelByID := fun _ => .ok rm1 }

/-- Environment in which the model fetch and version find succeed and
everything else (in particular the pipeline-run creation) fails. -/
def envTektonDown : Env :=
  { env0 with
    GetRegisteredModelByID := fun _ => .ok rm1
    FindModelVersion := fun _ _ => .ok mv1 }

end EdgeClient

namespace EdgeClient

theorem errorsIs_wrap (c : String) (e : GoError) (t : String) :
    errorsIs (.wrap c e) t = errorsIs e t := rfl

theorem errWraps_self (e : GoError) : errWraps e e = true := by
  cases e <;> simp [errWraps]

theorem errWraps_wrap (c : String) (e t : GoError) (h : errWraps e t = true) :
    errWraps (.wrap c e) t = true := by
  simp [errWraps, h]

theorem errWraps_wrap_self (c : String) (e : GoError) :
    errWraps (.wrap c e) e = true :=
  errWraps_wrap c e e (errWraps_self e)

/-- Sentinel detectability survives wrapping: if the returned error wraps the
underlying one, every sentinel detectable in the underlying error is
detectable in the returned error. -/
theorem errorsIs_of_errWraps (w e : GoError) (t : String)
    (hw : errWraps w e = true) (he : errorsIs e t = true) : errorsIs w t = true := by
  induction w with
  | sentinel n =>
    simp only [errWraps, beq_iff_eq] at hw
    rw [hw]; exact he
  | msg s =>
    simp only [errWraps, beq_iff_eq] at hw
    rw [hw]; exact he
  | wrap c inner ih =>
    simp only [errWraps, Bool.or_eq_true, beq_iff_eq] at hw
    rcases hw with hw | hw
    · rw [hw]; exact he
    · rw [errorsIs_wrap]; exact ih hw

theorem lookupParam_map_set (m : ParamMap) (k : String) (v : GoValue) :
    lookupParam (m.map (fun p => if p.1 == k then (k, v) else p)) k =
      if m.any (fun p => p.1 == k) then some v else none := by
  induction m with
  | nil => rfl
  | cons hd tl ih =>
    cases hk : (hd.1 == k) with
    | true =>
      simp only [List.map_cons, hk, List.any_cons, Bool.true_or]
      simp [lookupParam]
    | false =>
      simp only [List.map_cons, hk, List.any_cons, Bool.false_or,
        Bool.false_eq_true, if_false]
      rw [lookupParam, hk]
      simp only [Bool.false_eq_true, if_false]
      exact ih

theorem lookupParam_append_right (m l : ParamMap) (k : String)
    (h : m.any (fun p => p.1 == k) = false) :
    lookupParam (m ++ l) k = lookupParam l k := by
  induction m with
  | nil => simp
  | cons hd tl ih =>
    simp only [List.any_cons, Bool.or_eq_false_iff] at h
    simp only [List.cons_append, lookupParam, h.1]
    simpa using ih h.2

/-- After a Go map assignment the assigned key reads back the assigned
value. -/
theorem lookupParam_setParam_self (m : ParamMap) (k : String) (v : GoValue) :
    lookupParam (setParam m k v) k = some v := by
  unfold setParam
  cases h : m.any (fun p => p.1 == k) with
  | true =>
    simp only [eq_self_iff_true, if_true]
    rw [lookupParam_map_set, h]
    simp
  | false =>
    simp only [Bool.false_eq_true, if_false]
    rw [lookupParam_append_right m _ k h]
    simp [lookupParam]

/-- The metadata encoding preserves key lookups of string values. -/
theorem lookupMeta_ToMetadataValueMap (p : ParamMap) (md : MetaMap) (k s : String)
    (h : ToMetadataValueMap p = .ok md) (hl : lookupParam p k = some (.str s)) :
    lookupMeta md k = some (.str s) := by
  induction p generalizing md with
  | nil => simp [lookupParam] at hl
  | cons hd tl ih =>
    obtain ⟨k1, val⟩ := hd
    cases val with
    | str s1 =>
      simp only [ToMetadataValueMap] at h
      cases hrest : ToMetadataValueMap tl with
      | error e => rw [hrest] at h; cases h
      | ok m =>
        rw [hrest] at h
        cases h
        cases hk : (k1 == k) with
        | true =>
          simp only [lookupParam, hk, if_true] at hl
          cases hl
          simp [lookupMeta, hk]
        | false =>
          simp only [lookupParam, hk, Bool.false_eq_true, if_false] at hl
          simpa [lookupMeta, hk] using ih m hrest hl
    | ilist xs => simp [ToMetadataValueMap] at h
    | slist xs => simp [ToMetadataValueMap] at h
    | other tag => simp [ToMetadataValueMap] at h

/-- After flagging the parameters edge compatible and encoding them, the
submitted metadata carries `edgeCompatible = "true"`. -/
theorem lookupMeta_edgeCompatible (p : ParamMap) (md : MetaMap)
    (h : ToMetadataValueMap (setParam p "edgeCompatible" (.str "true")) = .ok md) :
    lookupMeta md "edgeCompatible" = some (.str "true") :=
  lookupMeta_ToMetadataValueMap _ md _ _ h
    (lookupParam_setParam_self p "edgeCompatible" (.str "true"))

end EdgeClient

namespace EdgeClient

theorem countCall_append (c : RemoteCall) (t1 t2 : List RemoteCall) :
    countCall c (t1 ++ t2) = countCall c t1 + countCall c t2 := by
  induction t1 with
  | nil => simp [countCall]
  | cons hd tl ih => simp [countCall, ih, Nat.add_assoc]

theorem countCall_eq_zero_of_not_mem {c : RemoteCall} {tr : List RemoteCall}
    (h : c ∉ tr) : countCall c tr = 0 := by
  induction tr with
  | nil => rfl
  | cons hd tl ih =>
    have hne : hd ≠ c := fun h' => h (h' ▸ List.mem_cons_self hd tl)
    simp only [countCall, if_neg hne, Nat.zero_add]
    exact ih (fun h' => h (List.mem_cons_of_mem hd h'))

theorem lastCall_cons (c : RemoteCall) (tr : List RemoteCall) (h : tr ≠ []) :
    lastCall (c :: tr) = lastCall tr := by
  cases tr with
  | nil => exact absurd rfl h
  | cons d tl => rfl

theorem lastCall_append (t1 t2 : List RemoteCall) (h : t2 ≠ []) :
    lastCall (t1 ++ t2) = lastCall t2 := by
  induction t1 with
  | nil => rfl
  | cons hd tl ih =>
    rw [List.cons_append, lastCall_cons _ _ (by simp [h]), ih]

theorem traceDiscipline_nil (env : Env) : TraceDiscipline env [] := by
  intro c hc
  cases hc

theorem traceDiscipline_singleton (env : Env) (c : RemoteCall) :
    TraceDiscipline env [c] := by
  intro d hd e he
  have hdc : d = c := by simpa using hd
  subst hdc
  exact ⟨by simp [countCall], Or.inr rfl⟩

theorem traceDiscipline_pair (env : Env) (c d : RemoteCall) (hcd : c ≠ d)
    (hc : ∀ e, callErr env c = some e → isSentinelErr e = true) :
    TraceDiscipline env [c, d] := by
  intro x hx e he
  have hx' : x = c ∨ x = d := by simpa using hx
  rcases hx' with hxc | hxd
  · subst hxc
    refine ⟨?_, Or.inl (hc e he)⟩
    have hdx : ¬(d = x) := fun h' => hcd (Eq.symm h')
    simp [countCall, hdx]
  · subst hxd
    refine ⟨?_, Or.inr rfl⟩
    simp [countCall, hcd]

theorem traceDiscipline_cons_ok (env : Env) (c : RemoteCall) (tr : List RemoteCall)
    (hc : callErr env c = none) (h : TraceDiscipline env tr) :
    TraceDiscipline env (c :: tr) := by
  intro d hd e he
  have hdc : d ≠ c := by
    intro h'
    subst h'
    rw [hc] at he
    cases he
  have hd' : d ∈ tr := by
    rcases List.mem_cons.mp hd with h' | h'
    · exact absurd h' hdc
    · exact h'
  obtain ⟨h1, h2⟩ := h d hd' e he
  refine ⟨?_, ?_⟩
  · have hcd' : ¬(c = d) := fun h' => hdc (Eq.symm h')
    simp only [countCall, if_neg hcd']
    omega
  · rcases h2 with h2 | h2
    · exact Or.inl h2
    · refine Or.inr ?_
      rw [lastCall_cons c tr (by intro h'; subst h'; cases hd')]
      exact h2

theorem allOk_traceDiscipline_append (env : Env) (t1 t2 : List RemoteCall)
    (h1 : AllOk env t1) (h2 : TraceDiscipline env t2) :
    TraceDiscipline env (t1 ++ t2) := by
  intro d hd e he
  have hd2 : d ∈ t2 := by
    rcases List.mem_append.mp hd with h' | h'
    · rw [h1 d h'] at he; cases he
    · exact h'
  obtain ⟨c1, c2⟩ := h2 d hd2 e he
  refine ⟨?_, ?_⟩
  · rw [countCall_append]
    have hz : countCall d t1 = 0 :=
      countCall_eq_zero_of_not_mem (fun hm => by rw [h1 d hm] at he; cases he)
    omega
  · rcases c2 with c2 | c2
    · exact Or.inl c2
    · refine Or.inr ?_
      rw [lastCall_append _ _ (by intro h'; subst h'; cases hd2)]
      exact c2

theorem disjoint_traceDiscipline_append (env : Env) (t1 t2 : List RemoteCall)
    (d1 : TraceDiscipline env t1) (s1 : OkOrSentinel env t1)
    (d2 : TraceDiscipline env t2)
    (hdisj : ∀ c, c ∈ t1 → c ∈ t2 → False) :
    TraceDiscipline env (t1 ++ t2) := by
  intro d hd e he
  rcases List.mem_append.mp hd with hm | hm
  · obtain ⟨c1, _⟩ := d1 d hm e he
    refine ⟨?_, Or.inl (s1 d hm e he)⟩
    rw [countCall_append]
    have hz : countCall d t2 = 0 :=
      countCall_eq_zero_of_not_mem (fun hm2 => hdisj d hm hm2)
    omega
  · obtain ⟨c1, c2⟩ := d2 d hm e he
    refine ⟨?_, ?_⟩
    · rw [countCall_append]
      have hz : countCall d t1 = 0 :=
        countCall_eq_zero_of_not_mem (fun hm1 => hdisj d hm1 hm)
      omega
    · rcases c2 with c2 | c2
      · exact Or.inl c2
      · refine Or.inr ?_
        rw [lastCall_append _ _ (by intro h'; subst h'; cases hm)]
        exact c2

end EdgeClient

namespace EdgeClient

theorem isSentinelErr_findVersion (e : GoError)
    (h : errorsIs e "ErrFindModelVersion" = true) : isSentinelErr e = true := by
  simp [isSentinelErr, h]

theorem isSentinelErr_findArtifact (e : GoError)
    (h : errorsIs e "ErrFindArtifact" = true) : isSentinelErr e = true := by
  simp [isSentinelErr, h]

theorem isSentinelErr_modelNotFound (e : GoError)
    (h : errorsIs e "ErrModelNotFound" = true) : isSentinelErr e = true := by
  simp [isSentinelErr, h]

theorem isSentinelErr_versionNotFound (e : GoError)
    (h : errorsIs e "ErrVersionNotFound" = true) : isSentinelErr e = true := by
  simp [isSentinelErr, h]

theorem mem_singleton_prop {P : RemoteCall → Prop} (a : RemoteCall) (h : P a) :
    ∀ c ∈ [a], P c := by
  intro c hc
  have hc' : c = a := by simpa using hc
  subst hc'
  exact h

theorem mem_pair_prop {P : RemoteCall → Prop} (a b : RemoteCall)
    (ha : P a) (hb : P b) : ∀ c ∈ [a, b], P c := by
  intro c hc
  have hc' : c = a ∨ c = b := by simpa using hc
  rcases hc' with rfl | rfl
  · exact ha
  · exact hb

theorem ensureVersionFinish_trace (v : ModelVersion) (tr : List RemoteCall) :
    (ensureVersionFinish v tr).2 = tr := by
  unfold ensureVersionFinish
  cases FromMetadataValueMap v.customProperties <;> rfl

end EdgeClient

namespace EdgeClient

theorem ensureVersion_master (env : Env) (i n : String) (p : Option ParamMap) :
    (∀ c ∈ (ensureVersionIsInModelRegistry env i n p).2, isVersionEnsureCall c = true) ∧
    TraceDiscipline env (ensureVersionIsInModelRegistry env i n p).2 ∧
    ∀ x, (ensureVersionIsInModelRegistry env i n p).1 = .ok x →
      OkOrSentinel env (ensureVersionIsInModelRegistry env i n p).2 := by
  cases hf : env.FindModelVersion i n with
  | error e =>
    cases hs : errorsIs e "ErrFindModelVersion" with
    | true =>
      cases p with
      | none =>
        simp only [ensureVersionIsInModelRegistry, hf, hs, if_true]
        refine ⟨mem_singleton_prop _ rfl, traceDiscipline_singleton env _, ?_⟩
        intro x hx
        cases hx
      | some p0 =>
        cases hm : ToMetadataValueMap (setParam p0 "edgeCompatible" (.str "true")) with
        | error e2 =>
          simp only [ensureVersionIsInModelRegistry, hf, hs, if_true, hm]
          refine ⟨mem_singleton_prop _ rfl, traceDiscipline_singleton env _, ?_⟩
          intro x hx
          cases hx
        | ok md =>
          cases hc : env.CreateModelVersion i n md with
          | error e3 =>
            simp only [ensureVersionIsInModelRegistry, hf, hs, if_true, hm, hc]
            refine ⟨mem_pair_prop _ _ rfl rfl, ?_, ?_⟩
            · refine traceDiscipline_pair env _ _ (by simp) ?_
              intro e' he'
              simp only [callErr, hf] at he'
              cases he'
              exact isSentinelErr_findVersion e hs
            · intro x hx
              cases hx
          | ok v =>
            simp only [ensureVersionIsInModelRegistry, hf, hs, if_true, hm, hc,
              ensureVersionFinish_trace]
            refine ⟨mem_pair_prop _ _ rfl rfl, ?_, ?_⟩
            · refine traceDiscipline_pair env _ _ (by simp) ?_
              intro e' he'
              simp only [callErr, hf] at he'
              cases he'
              exact isSentinelErr_findVersion e hs
            · intro x hx
              refine mem_pair_prop _ _ ?_ ?_
              · intro e' he'
                simp only [callErr, hf] at he'
                cases he'
                exact isSentinelErr_findVersion e hs
              · intro e' he'
                simp only [callErr, hc] at he'
                cases he'
    | false =>
      simp only [ensureVersionIsInModelRegistry, hf, hs, Bool.false_eq_true, if_false]
      refine ⟨mem_singleton_prop _ rfl, traceDiscipline_singleton env _, ?_⟩
      intro x hx
      cases hx
  | ok v0 =>
    have hfok : callErr env (.findModelVersion i n) = none := by simp [callErr, hf]
    cases p with
    | some p0 =>
      cases hm : ToMetadataValueMap (setParam p0 "edgeCompatible" (.str "true")) with
      | error e2 =>
        simp only [ensureVersionIsInModelRegistry, hf, hm]
        refine ⟨mem_singleton_prop _ rfl, traceDiscipline_singleton env _, ?_⟩
        intro x hx
        cases hx
      | ok md =>
        cases hu : env.UpdateModelVersion v0.id md with
        | error e3 =>
          simp only [ensureVersionIsInModelRegistry, hf, hm, hu]
          refine ⟨mem_pair_prop _ _ rfl rfl, ?_, ?_⟩
          · refine traceDiscipline_pair env _ _ (by simp) ?_
            intro e' he'
            rw [hfok] at he'
            cases he'
          · intro x hx
            cases hx
        | ok v =>
          simp only [ensureVersionIsInModelRegistry, hf, hm, hu, ensureVersionFinish_trace]
          refine ⟨mem_pair_prop _ _ rfl rfl, ?_, ?_⟩
          · refine traceDiscipline_pair env _ _ (by simp) ?_
            intro e' he'
            rw [hfok] at he'
            cases he'
          · intro x hx
            refine mem_pair_prop _ _ ?_ ?_
            · intro e' he'
              rw [hfok] at he'
              cases he'
            · intro e' he'
              simp only [callErr, hu] at he'
              cases he'
    | none =>
      simp only [ensureVersionIsInModelRegistry, hf, ensureVersionFinish_trace]
      refine ⟨mem_singleton_prop _ rfl, traceDiscipline_singleton env _, ?_⟩
      intro x hx
      refine mem_singleton_prop _ ?_
      intro e' he'
      rw [hfok] at he'
      cases he'

end EdgeClient

namespace EdgeClient

theorem ensureArtifact_master (env : Env) (i a d f fv : String) :
    (∀ c ∈ (ensureArtifactIsInModelRegistry env i a d f fv).2,
      isArtifactEnsureCall c = true) ∧
    TraceDiscipline env (ensureArtifactIsInModelRegistry env i a d f fv).2 := by
  cases hf : env.FindModelVersionArtifact i a with
  | error e =>
    cases hs : errorsIs e "ErrFindArtifact" with
    | true =>
      cases hc : env.CreateModelArtifact i a d "" f fv with
      | error e2 =>
        simp only [ensureArtifactIsInModelRegistry, hf, hs, if_true, hc]
        refine ⟨mem_pair_prop _ _ rfl rfl, ?_⟩
        refine traceDiscipline_pair env _ _ (by simp) ?_
        intro e' he'
        simp only [callErr, hf] at he'
        cases he'
        exact isSentinelErr_findArtifact e hs
      | ok a2 =>
        simp only [ensureArtifactIsInModelRegistry, hf, hs, if_true, hc]
        refine ⟨mem_pair_prop _ _ rfl rfl, ?_⟩
        refine traceDiscipline_pair env _ _ (by simp) ?_
        intro e' he'
        simp only [callErr, hf] at he'
        cases he'
        exact isSentinelErr_findArtifact e hs
    | false =>
      simp only [ensureArtifactIsInModelRegistry, hf, hs, Bool.false_eq_true, if_false]
      exact ⟨mem_singleton_prop _ rfl, traceDiscipline_singleton env _⟩
  | ok oa =>
    cases oa with
    | none =>
      simp only [ensureArtifactIsInModelRegistry, hf]
      exact ⟨mem_singleton_prop _ rfl, traceDiscipline_singleton env _⟩
    | some a2 =>
      simp only [ensureArtifactIsInModelRegistry, hf]
      exact ⟨mem_singleton_prop _ rfl, traceDiscipline_singleton env _⟩

end EdgeClient

namespace EdgeClient

theorem reconcile_of_version (c : RemoteCall) (h : isVersionEnsureCall c = true) :
    isModelRegistryReconcileCall c = true := by
  cases c <;> simp_all [isVersionEnsureCall, isModelRegistryReconcileCall]

theorem reconcile_of_artifact (c : RemoteCall) (h : isArtifactEnsureCall c = true) :
    isModelRegistryReconcileCall c = true := by
  cases c <;> simp_all [isArtifactEnsureCall, isModelRegistryReconcileCall]

theorem version_artifact_disjoint (c : RemoteCall)
    (h1 : isVersionEnsureCall c = true) (h2 : isArtifactEnsureCall c = true) : False := by
  cases c <;> simp_all [isVersionEnsureCall, isArtifactEnsureCall]

theorem ensureResources_master (env : Env) (i n : String) (p : Option ParamMap) :
    (∀ c ∈ (ensureResourcesAreInModelRegistry env i n p).2,
      isModelRegistryReconcileCall c = true) ∧
    TraceDiscipline env (ensureResourcesAreInModelRegistry env i n p).2 := by
  cases hg : env.GetRegisteredModelByID i with
  | error e =>
    cases hs : errorsIs e "ErrModelNotFound" with
    | true =>
      simp only [ensureResourcesAreInModelRegistry, hg, hs, if_true]
      exact ⟨mem_singleton_prop _ rfl, traceDiscipline_singleton env _⟩
    | false =>
      simp only [ensureResourcesAreInModelRegistry, hg, hs, Bool.false_eq_true, if_false]
      exact ⟨mem_singleton_prop _ rfl, traceDiscipline_singleton env _⟩
  | ok model =>
    have hgok : callErr env (.getRegisteredModelByID i) = none := by simp [callErr, hg]
    obtain ⟨vcalls, vdisc, vsent⟩ := ensureVersion_master env i n p
    rcases hev : ensureVersionIsInModelRegistry env i n p with ⟨rv, vtr⟩
    rw [hev] at vcalls vdisc vsent
    cases rv with
    | err e =>
      simp only [ensureResourcesAreInModelRegistry, hg, hev]
      refine ⟨?_, traceDiscipline_cons_ok env _ _ hgok vdisc⟩
      intro c hc
      rcases List.mem_cons.mp hc with rfl | hc'
      · rfl
      · exact reconcile_of_version c (vcalls c hc')
    | panicked =>
      simp only [ensureResourcesAreInModelRegistry, hg, hev]
      refine ⟨?_, traceDiscipline_cons_ok env _ _ hgok vdisc⟩
      intro c hc
      rcases List.mem_cons.mp hc with rfl | hc'
      · rfl
      · exact reconcile_of_version c (vcalls c hc')
    | ok vp =>
      obtain ⟨v, outP⟩ := vp
      obtain ⟨acalls, adisc⟩ :=
        ensureArtifact_master env v.id model.name model.description "ContainerImage" ""
      rcases hea : ensureArtifactIsInModelRegistry env v.id model.name model.description
          "ContainerImage" "" with ⟨ra, atr⟩
      rw [hea] at acalls adisc
      have hvsent : OkOrSentinel env vtr := vsent (v, outP) rfl
      have hdisj : ∀ c, c ∈ vtr → c ∈ atr → False := fun c h1 h2 =>
        version_artifact_disjoint c (vcalls c h1) (acalls c h2)
      have htd : TraceDiscipline env (vtr ++ atr) :=
        disjoint_traceDiscipline_append env vtr atr vdisc hvsent adisc hdisj
      have hcalls : ∀ c ∈ (RemoteCall.getRegisteredModelByID i) :: (vtr ++ atr),
          isModelRegistryReconcileCall c = true := by
        intro c hc
        rcases List.mem_cons.mp hc with rfl | hc'
        · rfl
        · rcases List.mem_append.mp hc' with h1 | h2
          · exact reconcile_of_version c (vcalls c h1)
          · exact reconcile_of_artifact c (acalls c h2)
      have htd' : TraceDiscipline env
          ((RemoteCall.getRegisteredModelByID i) :: (vtr ++ atr)) :=
        traceDiscipline_cons_ok env _ _ hgok htd
      cases ra with
      | err e => simpa only [ensureResourcesAreInModelRegistry, hg, hev, hea] using
          ⟨hcalls, htd'⟩
      | panicked => simpa only [ensureResourcesAreInModelRegistry, hg, hev, hea] using
          ⟨hcalls, htd'⟩
      | ok u => simpa only [ensureResourcesAreInModelRegistry, hg, hev, hea] using
          ⟨hcalls, htd'⟩

theorem updateModelImage_master (env : Env) (i n : String) (p : Option ParamMap) :
    (∀ c ∈ (UpdateModelImage env i n p).2, isModelRegistryReconcileCall c = true) ∧
    TraceDiscipline env (UpdateModelImage env i n p).2 := by
  by_cases hval : (i = "" ∨ n = "")
  · simp only [UpdateModelImage, if_pos hval]
    exact ⟨fun c hc => absurd hc (List.not_mem_nil c), traceDiscipline_nil env⟩
  · simp only [UpdateModelImage, if_neg hval]
    exact ensureResources_master env i n p

end EdgeClient

namespace EdgeClient

theorem vloop_calls (env : Env) (m : RegisteredModel) (vs : List ModelVersion) :
    ∀ c ∈ (getModelImagesForVersions env m vs).2, isGetImagesCall c = true := by
  induction vs with
  | nil => intro c hc; cases hc
  | cons v rest ih =>
    cases ha : env.GetModelVersionArtifacts v.id with
    | error e0 =>
      cases hs : errorsIs e0 "ErrVersionNotFound" with
      | true =>
        simp only [getModelImagesForVersions, ha, hs, if_true]
        exact mem_singleton_prop _ rfl
      | false =>
        simp only [getModelImagesForVersions, ha, hs, Bool.false_eq_true, if_false]
        exact mem_singleton_prop _ rfl
    | ok artifacts =>
      cases hp : FromMetadataValueMap v.customProperties with
      | error e1 =>
        simp only [getModelImagesForVersions, ha, hp]
        exact mem_singleton_prop _ rfl
      | ok params =>
        rcases hrec : getModelImagesForVersions env m rest with ⟨r2, tr2⟩
        rw [hrec] at ih
        cases r2 with
        | ok more =>
          simp only [getModelImagesForVersions, ha, hp, hrec]
          intro c hc
          rcases List.mem_cons.mp hc with rfl | hc'
          · rfl
          · exact ih c hc'
        | err x =>
          simp only [getModelImagesForVersions, ha, hp, hrec]
          intro c hc
          rcases List.mem_cons.mp hc with rfl | hc'
          · rfl
          · exact ih c hc'
        | panicked =>
          simp only [getModelImagesForVersions, ha, hp, hrec]
          intro c hc
          rcases List.mem_cons.mp hc with rfl | hc'
          · rfl
          · exact ih c hc'

theorem vloop_discipline (env : Env) (m : RegisteredModel) (vs : List ModelVersion) :
    TraceDiscipline env (getModelImagesForVersions env m vs).2 := by
  induction vs with
  | nil => exact traceDiscipline_nil env
  | cons v rest ih =>
    cases ha : env.GetModelVersionArtifacts v.id with
    | error e0 =>
      cases hs : errorsIs e0 "ErrVersionNotFound" with
      | true =>
        simp only [getModelImagesForVersions, ha, hs, if_true]
        exact traceDiscipline_singleton env _
      | false =>
        simp only [getModelImagesForVersions, ha, hs, Bool.false_eq_true, if_false]
        exact traceDiscipline_singleton env _
    | ok artifacts =>
      have haok : callErr env (.getModelVersionArtifacts v.id) = none := by
        simp [callErr, ha]
      cases hp : FromMetadataValueMap v.customProperties with
      | error e1 =>
        simp only [getModelImagesForVersions, ha, hp]
        exact traceDiscipline_singleton env _
      | ok params =>
        rcases hrec : getModelImagesForVersions env m rest with ⟨r2, tr2⟩
        rw [hrec] at ih
        cases r2 with
        | ok more =>
          simp only [getModelImagesForVersions, ha, hp, hrec]
          exact traceDiscipline_cons_ok env _ _ haok ih
        | err x =>
          simp only [getModelImagesForVersions, ha, hp, hrec]
          exact traceDiscipline_cons_ok env _ _ haok ih
        | panicked =>
          simp only [getModelImagesForVersions, ha, hp, hrec]
          exact traceDiscipline_cons_ok env _ _ haok ih

theorem vloop_allok (env : Env) (m : RegisteredModel) (vs : List ModelVersion) :
    ∀ imgs, (getModelImagesForVersions env m vs).1 = .ok imgs →
      AllOk env (getModelImagesForVersions env m vs).2 := by
  induction vs with
  | nil => intro imgs _ c hc; cases hc
  | cons v rest ih =>
    cases ha : env.GetModelVersionArtifacts v.id with
    | error e0 =>
      cases hs : errorsIs e0 "ErrVersionNotFound" with
      | true =>
        simp only [getModelImagesForVersions, ha, hs, if_true]
        intro imgs himgs
        cases himgs
      | false =>
        simp only [getModelImagesForVersions, ha, hs, Bool.false_eq_true, if_false]
        intro imgs himgs
        cases himgs
    | ok artifacts =>
      have haok : callErr env (.getModelVersionArtifacts v.id) = none := by
        simp [callErr, ha]
      cases hp : FromMetadataValueMap v.customProperties with
      | error e1 =>
        simp only [getModelImagesForVersions, ha, hp]
        intro imgs himgs
        cases himgs
      | ok params =>
        rcases hrec : getModelImagesForVersions env m rest with ⟨r2, tr2⟩
        rw [hrec] at ih
        cases r2 with
        | ok more =>
          simp only [getModelImagesForVersions, ha, hp, hrec]
          intro imgs himgs c hc
          rcases List.mem_cons.mp hc with rfl | hc'
          · exact haok
          · exact ih more rfl c hc'
        | err x =>
          simp only [getModelImagesForVersions, ha, hp, hrec]
          intro imgs himgs
          cases himgs
        | panicked =>
          simp only [getModelImagesForVersions, ha, hp, hrec]
          intro imgs himgs
          cases himgs

end EdgeClient

namespace EdgeClient

theorem vloop_fail (env : Env) (m : RegisteredModel) (vs : List ModelVersion) :
    ∀ c ∈ (getModelImagesForVersions env m vs).2, ∀ e, callErr env c = some e →
      (giSentinel c e = false →
        (getModelImagesForVersions env m vs).1 =
          .err (.wrap "failed to get model images" e)) ∧
      (giSentinel c e = true →
        ∃ s, (getModelImagesForVersions env m vs).1 = .err (.msg s)) := by
  induction vs with
  | nil => intro c hc; cases hc
  | cons v rest ih =>
    cases ha : env.GetModelVersionArtifacts v.id with
    | error e0 =>
      cases hs : errorsIs e0 "ErrVersionNotFound" with
      | true =>
        simp only [getModelImagesForVersions, ha, hs, if_true]
        intro c hc e he
        have hc' : c = RemoteCall.getModelVersionArtifacts v.id := by simpa using hc
        subst hc'
        simp only [callErr, ha] at he
        cases he
        have hg : giSentinel (RemoteCall.getModelVersionArtifacts v.id) e0 = true := by
          simp [giSentinel, hs]
        refine ⟨fun hgs => ?_, fun _ => ⟨_, rfl⟩⟩
        rw [hgs] at hg
        cases hg
      | false =>
        simp only [getModelImagesForVersions, ha, hs, Bool.false_eq_true, if_false]
        intro c hc e he
        have hc' : c = RemoteCall.getModelVersionArtifacts v.id := by simpa using hc
        subst hc'
        simp only [callErr, ha] at he
        cases he
        have hg : giSentinel (RemoteCall.getModelVersionArtifacts v.id) e0 = false := by
          simp [giSentinel, hs]
        refine ⟨fun _ => rfl, fun hgs => ?_⟩
        rw [hgs] at hg
        cases hg
    | ok artifacts =>
      have haok : callErr env (.getModelVersionArtifacts v.id) = none := by
        simp [callErr, ha]
      cases hp : FromMetadataValueMap v.customProperties with
      | error e1 =>
        simp only [getModelImagesForVersions, ha, hp]
        intro c hc e he
        have hc' : c = RemoteCall.getModelVersionArtifacts v.id := by simpa using hc
        subst hc'
        rw [haok] at he
        cases he
      | ok params =>
        rcases hrec : getModelImagesForVersions env m rest with ⟨r2, tr2⟩
        rw [hrec] at ih
        cases r2 with
        | ok more =>
          simp only [getModelImagesForVersions, ha, hp, hrec]
          intro c hc e he
          rcases List.mem_cons.mp hc with rfl | hc'
          · rw [haok] at he; cases he
          · obtain ⟨i1, i2⟩ := ih c hc' e he
            refine ⟨fun hgs => ?_, fun hgs => ?_⟩
            · exact absurd (i1 hgs) (by simp)
            · obtain ⟨s, hs'⟩ := i2 hgs
              exact absurd hs' (by simp)
        | err x =>
          simp only [getModelImagesForVersions, ha, hp, hrec]
          intro c hc e he
          rcases List.mem_cons.mp hc with rfl | hc'
          · rw [haok] at he; cases he
          · obtain ⟨i1, i2⟩ := ih c hc' e he
            exact ⟨i1, i2⟩
        | panicked =>
          simp only [getModelImagesForVersions, ha, hp, hrec]
          intro c hc e he
          rcases List.mem_cons.mp hc with rfl | hc'
          · rw [haok] at he; cases he
          · obtain ⟨i1, i2⟩ := ih c hc' e he
            refine ⟨fun hgs => ?_, fun hgs => ?_⟩
            · exact absurd (i1 hgs) (by simp)
            · obtain ⟨s, hs'⟩ := i2 hgs
              exact absurd hs' (by simp)

end EdgeClient

namespace EdgeClient

theorem mloop_master (env : Env) (ms : List RegisteredModel) :
    (∀ c ∈ (getModelImagesForModels env ms).2, isGetImagesCall c = true) ∧
    TraceDiscipline env (getModelImagesForModels env ms).2 ∧
    (∀ c ∈ (getModelImagesForModels env ms).2, ∀ e, callErr env c = some e →
      (giSentinel c e = false →
        (getModelImagesForModels env ms).1 =
          .err (.wrap "failed to get model images" e)) ∧
      (giSentinel c e = true →
        ∃ s, (getModelImagesForModels env ms).1 = .err (.msg s))) := by
  induction ms with
  | nil =>
    exact ⟨fun c hc => absurd hc (List.not_mem_nil c), traceDiscipline_nil env,
      fun c hc => absurd hc (List.not_mem_nil c)⟩
  | cons m rest ih =>
    obtain ⟨ihc, ihd, ihf⟩ := ih
    cases hv : env.GetModelVersions m.id with
    | error e0 =>
      cases hs : errorsIs e0 "ErrModelNotFound" with
      | true =>
        simp only [getModelImagesForModels, hv, hs, if_true]
        refine ⟨mem_singleton_prop _ rfl, traceDiscipline_singleton env _, ?_⟩
        intro c hc e he
        have hc' : c = RemoteCall.getModelVersions m.id := by simpa using hc
        subst hc'
        simp only [callErr, hv] at he
        cases he
        have hg : giSentinel (RemoteCall.getModelVersions m.id) e0 = true := by
          simp [giSentinel, hs]
        refine ⟨fun hgs => ?_, fun _ => ⟨_, rfl⟩⟩
        rw [hgs] at hg
        cases hg
      | false =>
        simp only [getModelImagesForModels, hv, hs, Bool.false_eq_true, if_false]
        refine ⟨mem_singleton_prop _ rfl, traceDiscipline_singleton env _, ?_⟩
        intro c hc e he
        have hc' : c = RemoteCall.getModelVersions m.id := by simpa using hc
        subst hc'
        simp only [callErr, hv] at he
        cases he
        have hg : giSentinel (RemoteCall.getModelVersions m.id) e0 = false := by
          simp [giSentinel, hs]
        refine ⟨fun _ => rfl, fun hgs => ?_⟩
        rw [hgs] at hg
        cases hg
    | ok versions =>
      have hvok : callErr env (.getModelVersions m.id) = none := by simp [callErr, hv]
      have hvc := vloop_calls env m versions
      have hvd := vloop_discipline env m versions
      have hva := vloop_allok env m versions
      have hvf := vloop_fail env m versions
      rcases hvl : getModelImagesForVersions env m versions with ⟨rv, vtr⟩
      rw [hvl] at hvc hvd hva hvf
      cases rv with
      | ok entries =>
        have hallok : AllOk env vtr := hva entries rfl
        rcases hrec : getModelImagesForModels env rest with ⟨rr, rtr⟩
        rw [hrec] at ihc ihd ihf
        cases rr with
        | ok more =>
          simp only [getModelImagesForModels, hv, hvl, hrec]
          refine ⟨?_, ?_, ?_⟩
          · intro c hc
            rcases List.mem_cons.mp hc with rfl | hc'
            · rfl
            · rcases List.mem_append.mp hc' with h1 | h2
              · exact hvc c h1
              · exact ihc c h2
          · exact traceDiscipline_cons_ok env _ _ hvok
              (allOk_traceDiscipline_append env _ _ hallok ihd)
          · intro c hc e he
            rcases List.mem_cons.mp hc with rfl | hc'
            · rw [hvok] at he; cases he
            · rcases List.mem_append.mp hc' with h1 | h2
              · rw [hallok c h1] at he; cases he
              · obtain ⟨i1, i2⟩ := ihf c h2 e he
                refine ⟨fun hgs => ?_, fun hgs => ?_⟩
                · exact absurd (i1 hgs) (by simp)
                · obtain ⟨s, hs'⟩ := i2 hgs
                  exact absurd hs' (by simp)
        | err x =>
          simp only [getModelImagesForModels, hv, hvl, hrec]
          refine ⟨?_, ?_, ?_⟩
          · intro c hc
            rcases List.mem_cons.mp hc with rfl | hc'
            · rfl
            · rcases List.mem_append.mp hc' with h1 | h2
              · exact hvc c h1
              · exact ihc c h2
          · exact traceDiscipline_cons_ok env _ _ hvok
              (allOk_traceDiscipline_append env _ _ hallok ihd)
          · intro c hc e he
            rcases List.mem_cons.mp hc with rfl | hc'
            · rw [hvok] at he; cases he
            · rcases List.mem_append.mp hc' with h1 | h2
              · rw [hallok c h1] at he; cases he
              · exact ihf c h2 e he
        | panicked =>
          simp only [getModelImagesForModels, hv, hvl, hrec]
          refine ⟨?_, ?_, ?_⟩
          · intro c hc
            rcases List.mem_cons.mp hc with rfl | hc'
            · rfl
            · rcases List.mem_append.mp hc' with h1 | h2
              · exact hvc c h1
              · exact ihc c h2
          · exact traceDiscipline_cons_ok env _ _ hvok
              (allOk_traceDiscipline_append env _ _ hallok ihd)
          · intro c hc e he
            rcases List.mem_cons.mp hc with rfl | hc'
            · rw [hvok] at he; cases he
            · rcases List.mem_append.mp hc' with h1 | h2
              · rw [hallok c h1] at he; cases he
              · obtain ⟨i1, i2⟩ := ihf c h2 e he
                refine ⟨fun hgs => ?_, fun hgs => ?_⟩
                · exact absurd (i1 hgs) (by simp)
                · obtain ⟨s, hs'⟩ := i2 hgs
                  exact absurd hs' (by simp)
      | err x =>
        simp only [getModelImagesForModels, hv, hvl]
        refine ⟨?_, ?_, ?_⟩
        · intro c hc
          rcases List.mem_cons.mp hc with rfl | hc'
          · rfl
          · exact hvc c hc'
        · exact traceDiscipline_cons_ok env _ _ hvok hvd
        · intro c hc e he
          rcases List.mem_cons.mp hc with rfl | hc'
          · rw [hvok] at he; cases he
          · exact hvf c hc' e he
      | panicked =>
        simp only [getModelImagesForModels, hv, hvl]
        refine ⟨?_, ?_, ?_⟩
        · intro c hc
          rcases List.mem_cons.mp hc with rfl | hc'
          · rfl
          · exact hvc c hc'
        · exact traceDiscipline_cons_ok env _ _ hvok hvd
        · intro c hc e he
          rcases List.mem_cons.mp hc with rfl | hc'
          · rw [hvok] at he; cases he
          · obtain ⟨i1, i2⟩ := hvf c hc' e he
            refine ⟨fun hgs => ?_, fun hgs => ?_⟩
            · exact absurd (i1 hgs) (by simp)
            · obtain ⟨s, hs'⟩ := i2 hgs
              exact absurd hs' (by simp)

end EdgeClient

namespace EdgeClient

theorem vloop_ok (env : Env) (m : RegisteredModel)
    (A : ModelVersion → List Artifact) (P : ModelVersion → ParamMap)
    (vs : List ModelVersion)
    (hA : ∀ v ∈ vs, env.GetModelVersionArtifacts v.id = .ok (A v))
    (hP : ∀ v ∈ vs, FromMetadataValueMap v.customProperties = .ok (P v)) :
    getModelImagesForVersions env m vs =
      (.ok (vs.flatMap fun v =>
        if (A v).length > 0 then
          (A v).map fun a =>
            ({ ModelID := m.id, Name := m.name, Description := m.description,
               Version := v.name, BuildParams := P v, URI := a.uri } : ModelImage)
        else
          [{ ModelID := m.id, Name := m.name, Description := m.description,
             Version := v.name, BuildParams := P v, URI := "" }]),
       vs.map fun v => RemoteCall.getModelVersionArtifacts v.id) := by
  induction vs with
  | nil => rfl
  | cons v rest ih =>
    have ha := hA v (List.mem_cons_self v rest)
    have hp := hP v (List.mem_cons_self v rest)
    have ih' := ih (fun w hw => hA w (List.mem_cons_of_mem v hw))
      (fun w hw => hP w (List.mem_cons_of_mem v hw))
    simp only [getModelImagesForVersions, ha, hp, ih', List.flatMap_cons, List.map_cons]

theorem mloop_ok (env : Env) (V : RegisteredModel → List ModelVersion)
    (A : ModelVersion → List Artifact) (P : ModelVersion → ParamMap)
    (ms : List RegisteredModel)
    (hV : ∀ m ∈ ms, env.GetModelVersions m.id = .ok (V m))
    (hA : ∀ m ∈ ms, ∀ v ∈ V m, env.GetModelVersionArtifacts v.id = .ok (A v))
    (hP : ∀ m ∈ ms, ∀ v ∈ V m, FromMetadataValueMap v.customProperties = .ok (P v)) :
    getModelImagesForModels env ms =
      (.ok (ms.flatMap fun m => (V m).flatMap fun v =>
        if (A v).length > 0 then
          (A v).map fun a =>
            ({ ModelID := m.id, Name := m.name, Description := m.description,
               Version := v.name, BuildParams := P v, URI := a.uri } : ModelImage)
        else
          [{ ModelID := m.id, Name := m.name, Description := m.description,
             Version := v.name, BuildParams := P v, URI := "" }]),
       ms.flatMap fun m =>
         RemoteCall.getModelVersions m.id ::
           (V m).map fun v => RemoteCall.getModelVersionArtifacts v.id) := by
  induction ms with
  | nil => rfl
  | cons m rest ih =>
    have hv := hV m (List.mem_cons_self m rest)
    have hvl := vloop_ok env m A P (V m) (hA m (List.mem_cons_self m rest))
      (hP m (List.mem_cons_self m rest))
    have ih' := ih (fun w hw => hV w (List.mem_cons_of_mem m hw))
      (fun w hw => hA w (List.mem_cons_of_mem m hw))
      (fun w hw => hP w (List.mem_cons_of_mem m hw))
    simp only [getModelImagesForModels, hv, hvl, ih', List.flatMap_cons, List.cons_append]

end EdgeClient

namespace EdgeClient

/-- C5: for every successful response of the registry's list-registered-models
call, `GetModels` returns a list of exactly the same length in the same order,
whose i-th element is a `Model` whose ID, Name and Description fields equal
the identifier, name and description of the i-th registered model; no other
transformation is applied (the result is precisely the element-wise map, and
the only remote call is the single list call). -/
theorem C5_getModels_identity (env : Env) (ms : List RegisteredModel)
    (h : env.GetRegisteredModels = .ok ms) :
    GetModels env =
      (.ok (ms.map fun m =>
        { ID := m.id, Name := m.name, Description := m.description }),
       [RemoteCall.getRegisteredModels]) := by
  simp only [GetModels, h]

theorem C5_getModels_identity_witness :
    GetModels envHappy =
      (.ok [{ ID := "m1", Name := "model-one", Description := "a model" }],
       [RemoteCall.getRegisteredModels]) :=
  C5_getModels_identity envHappy [rm1] rfl

/-- C4: for every model version returned by the registry during
`GetModelImages`, the result contains one entry per artifact of that version
carrying that artifact's URI and, when the version has no artifacts, exactly
one entry with empty URI; every entry carries the model's identifier, name
and description, the version's name, and the build parameters decoded from
the version's custom properties. -/
theorem C4_getModelImages_entries (env : Env)
    (V : RegisteredModel → List ModelVersion)
    (A : ModelVersion → List Artifact) (P : ModelVersion → ParamMap)
    (ms : List RegisteredModel)
    (hms : env.GetRegisteredModels = .ok ms)
    (hV : ∀ m ∈ ms, env.GetModelVersions m.id = .ok (V m))
    (hA : ∀ m ∈ ms, ∀ v ∈ V m, env.GetModelVersionArtifacts v.id = .ok (A v))
    (hP : ∀ m ∈ ms, ∀ v ∈ V m, FromMetadataValueMap v.customProperties = .ok (P v)) :
    (GetModelImages env).1 =
      .ok (ms.flatMap fun m => (V m).flatMap fun v =>
        if (A v).length > 0 then
          (A v).map fun a =>
            ({ ModelID := m.id, Name := m.name, Description := m.description,
               Version := v.name, BuildParams := P v, URI := a.uri } : ModelImage)
        else
          [{ ModelID := m.id, Name := m.name, Description := m.description,
             Version := v.name, BuildParams := P v, URI := "" }]) := by
  simp only [GetModelImages, hms, mloop_ok env V A P ms hV hA hP]

theorem C4_getModelImages_entries_witness :
    (GetModelImages envHappy).1 =
      .ok [{ ModelID := "m1", Name := "model-one", Description := "a model",
             Version := "1.0",
             BuildParams := [("edgeCompatible", GoValue.str "true")],
             URI := "quay.io/example/model:1" }] :=
  C4_getModelImages_entries envHappy (fun _ => [mv1]) (fun _ => [art1])
    (fun _ => [("edgeCompatible", GoValue.str "true")]) [rm1] rfl
    (fun _ _ => rfl)
    (fun m _ v hv => by
      have hv' : v = mv1 := by simpa using hv
      subst hv'
      rfl)
    (fun m _ v hv => by
      have hv' : v = mv1 := by simpa using hv
      subst hv'
      rfl)

/-- C8: `AddNewModelWithImage` called with non-empty model name, description
and version but a nil parameters map panics (the Go assignment
`parameters["edgeCompatible"] = "true"` writes to a nil map) instead of
returning an error, so the operation is not total over its declared argument
types; no remote call is made before the panic. -/
theorem C8_addNewModel_nil_map_panics (env : Env) (n d v u : String)
    (hn : n ≠ "") (hd : d ≠ "") (hv : v ≠ "") :
    AddNewModelWithImage env n d v u none = (.panicked, []) := by
  simp [AddNewModelWithImage, hn, hd, hv]

theorem C8_addNewModel_nil_map_panics_witness :
    AddNewModelWithImage env0 "mnist" "a model" "1" "" none = (.panicked, []) :=
  C8_addNewModel_nil_map_panics env0 "mnist" "a model" "1" ""
    (by decide) (by decide) (by decide)

/-- C10: `AddNewModelWithImage`'s validation rejects — with the error message
(which claims the URI is required) and no remote call — exactly the calls
where the model name, description or version is empty; an empty `uri`
argument passes validation and is forwarded to the registry in the
auto-register call. -/
theorem C10_addNewModel_validation (env : Env) (n d v u : String) (p : Option ParamMap) :
    ((AddNewModelWithImage env n d v u p).1 =
        .err (.msg "model name, description, version, and URI are required") ↔
      (n = "" ∨ d = "" ∨ v = "")) ∧
    ((n = "" ∨ d = "" ∨ v = "") → (AddNewModelWithImage env n d v u p).2 = []) ∧
    (∀ p0 md, n ≠ "" → d ≠ "" → v ≠ "" →
      ToMetadataValueMap (setParam p0 "edgeCompatible" (.str "true")) = .ok md →
      (AddNewModelWithImage env n d v "" (some p0)).2 =
        [.autoRegisterModelVersionArtifact n d v n "" "ContainerImage" "" md]) := by
  refine ⟨?_, ?_, ?_⟩
  · by_cases hval : (n = "" ∨ d = "" ∨ v = "")
    · simp only [AddNewModelWithImage, if_pos hval]
      exact ⟨fun _ => hval, fun _ => trivial⟩
    · simp only [AddNewModelWithImage, if_neg hval]
      refine iff_of_false ?_ hval
      cases p with
      | none => simp
      | some p0 =>
        cases hm : ToMetadataValueMap (setParam p0 "edgeCompatible" (.str "true")) with
        | error e => simp [hm]
        | ok md =>
          cases har : env.AutoRegisterModelVersionArtifact n d v n u "ContainerImage" "" md with
          | error e => simp [hm, har]
          | ok trip =>
            obtain ⟨m2, v2, a2⟩ := trip
            simp [hm, har]
  · intro hval
    simp only [AddNewModelWithImage, if_pos hval]
  · intro p0 md hn hd hv hmd
    have hval : ¬(n = "" ∨ d = "" ∨ v = "") :=
      fun h => h.elim hn (fun h' => h'.elim hd hv)
    simp only [AddNewModelWithImage, if_neg hval, hmd]
    cases har : env.AutoRegisterModelVersionArtifact n d v n "" "ContainerImage" "" md with
    | error e => rfl
    | ok trip =>
      obtain ⟨m2, v2, a2⟩ := trip
      rfl

theorem C10_addNewModel_validation_witness :
    (((AddNewModelWithImage env0 "" "a model" "1" "u" (some pParams)).1 =
        .err (.msg "model name, description, version, and URI are required") ↔
      ("" = "" ∨ "a model" = "" ∨ "1" = "")) ∧
    (("" = "" ∨ "a model" = "" ∨ "1" = "") →
      (AddNewModelWithImage env0 "" "a model" "1" "u" (some pParams)).2 = []) ∧
    (∀ p0 md, "" ≠ "" → "a model" ≠ "" → "1" ≠ "" →
      ToMetadataValueMap (setParam p0 "edgeCompatible" (.str "true")) = .ok md →
      (AddNewModelWithImage env0 "" "a model" "1" "" (some p0)).2 =
        [.autoRegisterModelVersionArtifact "" "a model" "1" "" "" "ContainerImage" "" md])) :=
  C10_addNewModel_validation env0 "" "a model" "1" "u" (some pParams)

end EdgeClient

namespace EdgeClient

/-- C2: whenever the parameter map holds string values for `s3SecretName` and
`testDataConfigMapName` and the remaining values convert, `CreatePipelineRun`
makes exactly one resource-creation call to the pipeline engine, submitting to
the given namespace (with the supplied kube-config) a pipeline-run object
that carries the converted parameters (led by `model-name` and
`model-version`), a workspace binding for the named secret, a workspace
binding for the named config map, and a workspace with a volume claim
template requesting 1Gi ReadWriteOnce storage. -/
theorem C2_createPipelineRun_submission (env : Env) (mn mv ns kc : String)
    (parameters : ParamMap) (s3 tdc : String) (ps : List TektonParam)
    (h1 : lookupParam parameters "s3SecretName" = some (.str s3))
    (h2 : lookupParam parameters "testDataConfigMapName" = some (.str tdc))
    (h3 : toTektonParams mn mv parameters = .ok ps) :
    (CreatePipelineRun env mn mv ns kc parameters).2 =
      [.tektonCreate ns (newPipelineRunObject mn ns ps s3 tdc) kc] ∧
    (newPipelineRunObject mn ns ps s3 tdc).Namespace = ns ∧
    (newPipelineRunObject mn ns ps s3 tdc).Params = ps ∧
    (∃ rest, ps =
      { Name := "model-name", Value := NewStructuredValues mn } ::
      { Name := "model-version", Value := NewStructuredValues mv } :: rest) ∧
    ({ Name := "s3-secret", SecretName := some s3 } : WorkspaceBinding) ∈
      (newPipelineRunObject mn ns ps s3 tdc).Workspaces ∧
    ({ Name := "test-data", ConfigMapName := some tdc } : WorkspaceBinding) ∈
      (newPipelineRunObject mn ns ps s3 tdc).Workspaces ∧
    ({ Name := "build-workspace-pv",
       VolumeClaimTemplate :=
         some { AccessModes := ["ReadWriteOnce"], RequestsStorage := "1Gi" } } :
      WorkspaceBinding) ∈ (newPipelineRunObject mn ns ps s3 tdc).Workspaces := by
  refine ⟨?_, rfl, rfl, ?_, ?_, ?_, ?_⟩
  · simp only [CreatePipelineRun, h1, h2, h3]
    cases htc : env.TektonCreate ns (newPipelineRunObject mn ns ps s3 tdc) kc with
    | error e => rfl
    | ok created => rfl
  · have h3' := h3
    cases haux : toTektonParamsAux parameters with
    | error e =>
      rw [toTektonParams, haux] at h3'
      cases h3'
    | ok ps' =>
      rw [toTektonParams, haux] at h3'
      cases h3'
      exact ⟨ps', rfl⟩
  · simp [newPipelineRunObject]
  · simp [newPipelineRunObject]
  · simp [newPipelineRunObject]

theorem C2_createPipelineRun_submission_witness :
    ((CreatePipelineRun envHappy "model-one" "1.0" "edge-ns" "kubeconfig" pParams).2 =
      [.tektonCreate "edge-ns"
        (newPipelineRunObject "model-one" "edge-ns"
          [{ Name := "model-name", Value := NewStructuredValues "model-one" },
           { Name := "model-version", Value := NewStructuredValues "1.0" },
           { Name := "s3SecretName", Value := NewStructuredValues "s3cred" },
           { Name := "testDataConfigMapName", Value := NewStructuredValues "testdata" }]
          "s3cred" "testdata") "kubeconfig"] ∧
    (newPipelineRunObject "model-one" "edge-ns"
        [{ Name := "model-name", Value := NewStructuredValues "model-one" },
         { Name := "model-version", Value := NewStructuredValues "1.0" },
         { Name := "s3SecretName", Value := NewStructuredValues "s3cred" },
         { Name := "testDataConfigMapName", Value := NewStructuredValues "testdata" }]
        "s3cred" "testdata").Namespace = "edge-ns" ∧
    (newPipelineRunObject "model-one" "edge-ns"
        [{ Name := "model-name", Value := NewStructuredValues "model-one" },
         { Name := "model-version", Value := NewStructuredValues "1.0" },
         { Name := "s3SecretName", Value := NewStructuredValues "s3cred" },
         { Name := "testDataConfigMapName", Value := NewStructuredValues "testdata" }]
        "s3cred" "testdata").Params =
      [{ Name := "model-name", Value := NewStructuredValues "model-one" },
       { Name := "model-version", Value := NewStructuredValues "1.0" },
       { Name := "s3SecretName", Value := NewStructuredValues "s3cred" },
       { Name := "testDataConfigMapName", Value := NewStructuredValues "testdata" }] ∧
    (∃ rest,
      ([{ Name := "model-name", Value := NewStructuredValues "model-one" },
        { Name := "model-version", Value := NewStructuredValues "1.0" },
        { Name := "s3SecretName", Value := NewStructuredValues "s3cred" },
        { Name := "testDataConfigMapName", Value := NewStructuredValues "testdata" }] :
          List TektonParam) =
      { Name := "model-name", Value := NewStructuredValues "model-one" } ::
      { Name := "model-version", Value := NewStructuredValues "1.0" } :: rest) ∧
    ({ Name := "s3-secret", SecretName := some "s3cred" } : WorkspaceBinding) ∈
      (newPipelineRunObject "model-one" "edge-ns"
        [{ Name := "model-name", Value := NewStructuredValues "model-one" },
         { Name := "model-version", Value := NewStructuredValues "1.0" },
         { Name := "s3SecretName", Value := NewStructuredValues "s3cred" },
         { Name := "testDataConfigMapName", Value := NewStructuredValues "testdata" }]
        "s3cred" "testdata").Workspaces ∧
    ({ Name := "test-data", ConfigMapName := some "testdata" } : WorkspaceBinding) ∈
      (newPipelineRunObject "model-one" "edge-ns"
        [{ Name := "model-name", Value := NewStructuredValues "model-one" },
         { Name := "model-version", Value := NewStructuredValues "1.0" },
         { Name := "s3SecretName", Value := NewStructuredValues "s3cred" },
         { Name := "testDataConfigMapName", Value := NewStructuredValues "testdata" }]
        "s3cred" "testdata").Workspaces ∧
    ({ Name := "build-workspace-pv",
       VolumeClaimTemplate :=
         some { AccessModes := ["ReadWriteOnce"], RequestsStorage := "1Gi" } } :
      WorkspaceBinding) ∈
      (newPipelineRunObject "model-one" "edge-ns"
        [{ Name := "model-name", Value := NewStructuredValues "model-one" },
         { Name := "model-version", Value := NewStructuredValues "1.0" },
         { Name := "s3SecretName", Value := NewStructuredValues "s3cred" },
         { Name := "testDataConfigMapName", Value := NewStructuredValues "testdata" }]
        "s3cred" "testdata").Workspaces) :=
  C2_createPipelineRun_submission envHappy "model-one" "1.0" "edge-ns" "kubeconfig"
    pParams "s3cred" "testdata" _ rfl rfl rfl

end EdgeClient

namespace EdgeClient

/-- C7: on every successful `CreatePipelineRun` (and hence `BuildModelImage`),
the returned `PipelineRun`'s Name and Namespace are taken from the resource
as returned by the pipeline engine's creation call — whose name the platform
assigns from the submitted generate-name prefix `aiedge-e2e-<model>-` — not
from the values the caller supplied. -/
theorem C7_pipelineRun_platform_assigned (env : Env) (mn mv ns kc : String)
    (parameters : ParamMap) (s3 tdc : String) (ps : List TektonParam)
    (created : CreatedPipelineRun)
    (h1 : lookupParam parameters "s3SecretName" = some (.str s3))
    (h2 : lookupParam parameters "testDataConfigMapName" = some (.str tdc))
    (h3 : toTektonParams mn mv parameters = .ok ps)
    (h4 : env.TektonCreate ns (newPipelineRunObject mn ns ps s3 tdc) kc = .ok created) :
    (CreatePipelineRun env mn mv ns kc parameters).1 =
      .ok { Name := created.Name, Namespace := created.Namespace } ∧
    (newPipelineRunObject mn ns ps s3 tdc).GenerateName = "aiedge-e2e-" ++ mn ++ "-" ∧
    (∀ modelID m2 v2, modelID ≠ "" → mv ≠ "" → ns ≠ "" → kc ≠ "" →
      env.GetRegisteredModelByID modelID = .ok m2 →
      env.FindModelVersion modelID mv = .ok v2 →
      m2.name = mn →
      (BuildModelImage env modelID mv ns kc (some parameters)).1 =
        .ok { Name := created.Name, Namespace := created.Namespace }) := by
  have hcpr : (CreatePipelineRun env mn mv ns kc parameters).1 =
      .ok { Name := created.Name, Namespace := created.Namespace } := by
    simp only [CreatePipelineRun, h1, h2, h3, h4]
  refine ⟨hcpr, rfl, ?_⟩
  intro modelID m2 v2 hid hmv hns hkc hm hv hname
  have hval : ¬(modelID = "" ∨ mv = "" ∨ ns = "" ∨ kc = "") := by
    rintro (h | h | h | h)
    · exact hid h
    · exact hmv h
    · exact hns h
    · exact hkc h
  simp only [BuildModelImage, if_neg hval, hm, hv, hname, withTrace]
  rcases hc : CreatePipelineRun env mn mv ns kc parameters with ⟨r, tr⟩
  rw [hc] at hcpr
  exact hcpr

theorem C7_pipelineRun_platform_assigned_witness :
    ((CreatePipelineRun envHappy "model-one" "1.0" "edge-ns" "kubeconfig" pParams).1 =
      .ok { Name := "aiedge-e2e-model-one-abc12", Namespace := "edge-ns" } ∧
    (newPipelineRunObject "model-one" "edge-ns"
        [{ Name := "model-name", Value := NewStructuredValues "model-one" },
         { Name := "model-version", Value := NewStructuredValues "1.0" },
         { Name := "s3SecretName", Value := NewStructuredValues "s3cred" },
         { Name := "testDataConfigMapName", Value := NewStructuredValues "testdata" }]
        "s3cred" "testdata").GenerateName = "aiedge-e2e-" ++ "model-one" ++ "-" ∧
    (∀ modelID m2 v2, modelID ≠ "" → "1.0" ≠ "" → "edge-ns" ≠ "" → "kubeconfig" ≠ "" →
      envHappy.GetRegisteredModelByID modelID = .ok m2 →
      envHappy.FindModelVersion modelID "1.0" = .ok v2 →
      m2.name = "model-one" →
      (BuildModelImage envHappy modelID "1.0" "edge-ns" "kubeconfig" (some pParams)).1 =
        .ok { Name := "aiedge-e2e-model-one-abc12", Namespace := "edge-ns" })) :=
  C7_pipelineRun_platform_assigned envHappy "model-one" "1.0" "edge-ns" "kubeconfig"
    pParams "s3cred" "testdata" _
    { Name := "aiedge-e2e-model-one-abc12", Namespace := "edge-ns" }
    rfl rfl rfl rfl

end EdgeClient

namespace EdgeClient

theorem versionWrite_none_of_artifactCall (c : RemoteCall)
    (h : isArtifactEnsureCall c = true) : versionWriteMeta c = none := by
  cases c <;> simp_all [isArtifactEnsureCall, versionWriteMeta]

theorem versionWrite_none_of_getImagesCall (c : RemoteCall)
    (h : isGetImagesCall c = true) : versionWriteMeta c = none := by
  cases c <;> simp_all [isGetImagesCall, versionWriteMeta]

/-- Both version-writing calls of `ensureVersionIsInModelRegistry` submit
metadata obtained from the parameters after the `edgeCompatible = "true"`
assignment. -/
theorem ensureVersion_versionWrite (env : Env) (i n : String) (p : Option ParamMap) :
    ∀ c ∈ (ensureVersionIsInModelRegistry env i n p).2, ∀ md,
      versionWriteMeta c = some md →
      lookupMeta md "edgeCompatible" = some (.str "true") := by
  cases hf : env.FindModelVersion i n with
  | error e =>
    cases hs : errorsIs e "ErrFindModelVersion" with
    | true =>
      cases p with
      | none =>
        simp only [ensureVersionIsInModelRegistry, hf, hs, if_true]
        intro c hc md hw
        have hc' : c = RemoteCall.findModelVersion i n := by simpa using hc
        subst hc'
        cases hw
      | some p0 =>
        cases hm : ToMetadataValueMap (setParam p0 "edgeCompatible" (.str "true")) with
        | error e2 =>
          simp only [ensureVersionIsInModelRegistry, hf, hs, if_true, hm]
          intro c hc md hw
          have hc' : c = RemoteCall.findModelVersion i n := by simpa using hc
          subst hc'
          cases hw
        | ok md0 =>
          have hlook := lookupMeta_edgeCompatible p0 md0 hm
          cases hcr : env.CreateModelVersion i n md0 with
          | error e3 =>
            simp only [ensureVersionIsInModelRegistry, hf, hs, if_true, hm, hcr]
            intro c hc md hw
            have hc' : c = RemoteCall.findModelVersion i n ∨
                c = RemoteCall.createModelVersion i n md0 := by simpa using hc
            rcases hc' with rfl | rfl
            · cases hw
            · simp only [versionWriteMeta] at hw
              cases hw
              exact hlook
          | ok v =>
            simp only [ensureVersionIsInModelRegistry, hf, hs, if_true, hm, hcr,
              ensureVersionFinish_trace]
            intro c hc md hw
            have hc' : c = RemoteCall.findModelVersion i n ∨
                c = RemoteCall.createModelVersion i n md0 := by simpa using hc
            rcases hc' with rfl | rfl
            · cases hw
            · simp only [versionWriteMeta] at hw
              cases hw
              exact hlook
    | false =>
      simp only [ensureVersionIsInModelRegistry, hf, hs, Bool.false_eq_true, if_false]
      intro c hc md hw
      have hc' : c = RemoteCall.findModelVersion i n := by simpa using hc
      subst hc'
      cases hw
  | ok v0 =>
    cases p with
    | some p0 =>
      cases hm : ToMetadataValueMap (setParam p0 "edgeCompatible" (.str "true")) with
      | error e2 =>
        simp only [ensureVersionIsInModelRegistry, hf, hm]
        intro c hc md hw
        have hc' : c = RemoteCall.findModelVersion i n := by simpa using hc
        subst hc'
        cases hw
      | ok md0 =>
        have hlook := lookupMeta_edgeCompatible p0 md0 hm
        cases hu : env.UpdateModelVersion v0.id md0 with
        | error e3 =>
          simp only [ensureVersionIsInModelRegistry, hf, hm, hu]
          intro c hc md hw
          have hc' : c = RemoteCall.findModelVersion i n ∨
              c = RemoteCall.updateModelVersion v0.id md0 := by simpa using hc
          rcases hc' with rfl | rfl
          · cases hw
          · simp only [versionWriteMeta] at hw
            cases hw
            exact hlook
        | ok v =>
          simp only [ensureVersionIsInModelRegistry, hf, hm, hu, ensureVersionFinish_trace]
          intro c hc md hw
          have hc' : c = RemoteCall.findModelVersion i n ∨
              c = RemoteCall.updateModelVersion v0.id md0 := by simpa using hc
          rcases hc' with rfl | rfl
          · cases hw
          · simp only [versionWriteMeta] at hw
            cases hw
            exact hlook
    | none =>
      simp only [ensureVersionIsInModelRegistry, hf, ensureVersionFinish_trace]
      intro c hc md hw
      have hc' : c = RemoteCall.findModelVersion i n := by simpa using hc
      subst hc'
      cases hw

theorem createPipelineRun_no_versionWrite (env : Env) (mn mv ns kc : String)
    (parameters : ParamMap) :
    ∀ c ∈ (CreatePipelineRun env mn mv ns kc parameters).2, versionWriteMeta c = none := by
  cases hl1 : lookupParam parameters "s3SecretName" with
  | none =>
    simp only [CreatePipelineRun, hl1]
    intro c hc
    cases hc
  | some s3v =>
    cases s3v with
    | str s3 =>
      cases hl2 : lookupParam parameters "testDataConfigMapName" with
      | none =>
        simp only [CreatePipelineRun, hl1, hl2]
        intro c hc
        cases hc
      | some tdv =>
        cases tdv with
        | str tdc =>
          cases htp : toTektonParams mn mv parameters with
          | error e =>
            simp only [CreatePipelineRun, hl1, hl2, htp]
            intro c hc
            cases hc
          | ok ps =>
            cases htc : env.TektonCreate ns (newPipelineRunObject mn ns ps s3 tdc) kc with
            | error e =>
              simp only [CreatePipelineRun, hl1, hl2, htp, htc]
              exact mem_singleton_prop _ rfl
            | ok created =>
              simp only [CreatePipelineRun, hl1, hl2, htp, htc]
              exact mem_singleton_prop _ rfl
        | ilist xs =>
          simp only [CreatePipelineRun, hl1, hl2]
          intro c hc
          cases hc
        | slist xs =>
          simp only [CreatePipelineRun, hl1, hl2]
          intro c hc
          cases hc
        | other tag =>
          simp only [CreatePipelineRun, hl1, hl2]
          intro c hc
          cases hc
    | ilist xs =>
      simp only [CreatePipelineRun, hl1]
      intro c hc
      cases hc
    | slist xs =>
      simp only [CreatePipelineRun, hl1]
      intro c hc
      cases hc
    | other tag =>
      simp only [CreatePipelineRun, hl1]
      intro c hc
      cases hc

end EdgeClient

namespace EdgeClient

theorem buildModelImage_no_versionWrite (env : Env) (mid mv ns kc : String)
    (parameters : Option ParamMap) :
    ∀ c ∈ (BuildModelImage env mid mv ns kc parameters).2, versionWriteMeta c = none := by
  by_cases hval : (mid = "" ∨ mv = "" ∨ ns = "" ∨ kc = "")
  · simp only [BuildModelImage, if_pos hval]
    intro c hc
    cases hc
  · cases hm : env.GetRegisteredModelByID mid with
    | error e =>
      simp only [BuildModelImage, if_neg hval, hm]
      exact mem_singleton_prop _ rfl
    | ok m =>
      cases hv : env.FindModelVersion mid mv with
      | error e =>
        simp only [BuildModelImage, if_neg hval, hm, hv]
        exact mem_pair_prop _ _ rfl rfl
      | ok v =>
        cases parameters with
        | some ps =>
          have hno := createPipelineRun_no_versionWrite env m.name mv ns kc ps
          rcases hcp : CreatePipelineRun env m.name mv ns kc ps with ⟨r, tr⟩
          rw [hcp] at hno
          simp only [BuildModelImage, if_neg hval, hm, hv, hcp, withTrace]
          intro c hc
          rcases List.mem_append.mp hc with h1 | h2
          · rcases (by simpa using h1 : c = RemoteCall.getRegisteredModelByID mid ∨
                c = RemoteCall.findModelVersion mid mv) with rfl | rfl
            · rfl
            · rfl
          · exact hno c h2
        | none =>
          cases hfm : FromMetadataValueMap v.customProperties with
          | error e =>
            simp only [BuildModelImage, if_neg hval, hm, hv, hfm]
            exact mem_pair_prop _ _ rfl rfl
          | ok ps =>
            have hno := createPipelineRun_no_versionWrite env m.name mv ns kc ps
            rcases hcp : CreatePipelineRun env m.name mv ns kc ps with ⟨r, tr⟩
            rw [hcp] at hno
            simp only [BuildModelImage, if_neg hval, hm, hv, hfm, hcp, withTrace]
            intro c hc
            rcases List.mem_append.mp hc with h1 | h2
            · rcases (by simpa using h1 : c = RemoteCall.getRegisteredModelByID mid ∨
                  c = RemoteCall.findModelVersion mid mv) with rfl | rfl
              · rfl
              · rfl
            · exact hno c h2

/-- C9: every model version written to the registry by this client — created
by `AddNewModelWithImage`, or created or updated through `UpdateModelImage`'s
reconcile path — carries the custom property `edgeCompatible = "true"` in the
submitted metadata, and no other operation issues a version-writing call at
all. -/
theorem C9_edgeCompatible_always_set (env : Env) :
    (∀ n d v u p, ∀ c ∈ (AddNewModelWithImage env n d v u p).2, ∀ md,
      versionWriteMeta c = some md →
      lookupMeta md "edgeCompatible" = some (.str "true")) ∧
    (∀ i vn p, ∀ c ∈ (UpdateModelImage env i vn p).2, ∀ md,
      versionWriteMeta c = some md →
      lookupMeta md "edgeCompatible" = some (.str "true")) ∧
    (∀ c ∈ (GetModels env).2, versionWriteMeta c = none) ∧
    (∀ c ∈ (GetModelImages env).2, versionWriteMeta c = none) ∧
    (∀ mid mv2 ns kc p, ∀ c ∈ (BuildModelImage env mid mv2 ns kc p).2,
      versionWriteMeta c = none) ∧
    (∀ mn mv2 ns kc ps, ∀ c ∈ (CreatePipelineRun env mn mv2 ns kc ps).2,
      versionWriteMeta c = none) := by
  refine ⟨?_, ?_, ?_, ?_, ?_, ?_⟩
  · intro n d v u p c hc md hw
    by_cases hval : (n = "" ∨ d = "" ∨ v = "")
    · simp only [AddNewModelWithImage, if_pos hval] at hc
      cases hc
    · cases p with
      | none =>
        simp only [AddNewModelWithImage, if_neg hval] at hc
        cases hc
      | some p0 =>
        cases hm : ToMetadataValueMap (setParam p0 "edgeCompatible" (.str "true")) with
        | error e =>
          simp only [AddNewModelWithImage, if_neg hval] at hc
          simp only [hm] at hc
          cases hc
        | ok md0 =>
          have hlook := lookupMeta_edgeCompatible p0 md0 hm
          cases har : env.AutoRegisterModelVersionArtifact n d v n u "ContainerImage" "" md0 with
          | error e =>
            simp only [AddNewModelWithImage, if_neg hval] at hc
            simp only [hm, har] at hc
            have hc' : c = RemoteCall.autoRegisterModelVersionArtifact
                n d v n u "ContainerImage" "" md0 := by simpa using hc
            subst hc'
            simp only [versionWriteMeta] at hw
            cases hw
            exact hlook
          | ok trip =>
            obtain ⟨m2, v2, a2⟩ := trip
            simp only [AddNewModelWithImage, if_neg hval] at hc
            simp only [hm, har] at hc
            have hc' : c = RemoteCall.autoRegisterModelVersionArtifact
                n d v n u "ContainerImage" "" md0 := by simpa using hc
            subst hc'
            simp only [versionWriteMeta] at hw
            cases hw
            exact hlook
  · intro i vn p c hc md hw
    by_cases hval : (i = "" ∨ vn = "")
    · simp only [UpdateModelImage, if_pos hval] at hc
      cases hc
    · simp only [UpdateModelImage, if_neg hval] at hc
      cases hg : env.GetRegisteredModelByID i with
      | error e =>
        cases hs : errorsIs e "ErrModelNotFound" with
        | true =>
          simp only [ensureResourcesAreInModelRegistry, hg, hs, if_true] at hc
          have hc' : c = RemoteCall.getRegisteredModelByID i := by simpa using hc
          subst hc'
          simp only [versionWriteMeta] at hw
          cases hw
        | false =>
          simp only [ensureResourcesAreInModelRegistry, hg, hs, Bool.false_eq_true, if_false] at hc
          have hc' : c = RemoteCall.getRegisteredModelByID i := by simpa using hc
          subst hc'
          simp only [versionWriteMeta] at hw
          cases hw
      | ok model =>
        have hvw := ensureVersion_versionWrite env i vn p
        rcases hev : ensureVersionIsInModelRegistry env i vn p with ⟨rv, vtr⟩
        rw [hev] at hvw
        cases rv with
        | err e =>
          simp only [ensureResourcesAreInModelRegistry, hg, hev] at hc
          rcases List.mem_cons.mp hc with rfl | hc'
          · simp only [versionWriteMeta] at hw
            cases hw
          · exact hvw c hc' md hw
        | panicked =>
          simp only [ensureResourcesAreInModelRegistry, hg, hev] at hc
          rcases List.mem_cons.mp hc with rfl | hc'
          · simp only [versionWriteMeta] at hw
            cases hw
          · exact hvw c hc' md hw
        | ok vp =>
          obtain ⟨v, outP⟩ := vp
          have hac := (ensureArtifact_master env v.id model.name model.description
            "ContainerImage" "").1
          rcases hea : ensureArtifactIsInModelRegistry env v.id model.name
              model.description "ContainerImage" "" with ⟨ra, atr⟩
          rw [hea] at hac
          have hsplit : (ensureResourcesAreInModelRegistry env i vn p).2 =
              RemoteCall.getRegisteredModelByID i :: (vtr ++ atr) := by
            simp only [ensureResourcesAreInModelRegistry, hg, hev, hea]
            cases ra <;> rfl
          rw [hsplit] at hc
          rcases List.mem_cons.mp hc with rfl | hc'
          · simp only [versionWriteMeta] at hw
            cases hw
          · rcases List.mem_append.mp hc' with h1 | h2
            · exact hvw c h1 md hw
            · rw [versionWrite_none_of_artifactCall c (hac c h2)] at hw
              cases hw
  · intro c hc
    cases hg : env.GetRegisteredModels with
    | error e =>
      simp only [GetModels, hg] at hc
      have hc' : c = RemoteCall.getRegisteredModels := by simpa using hc
      subst hc'
      rfl
    | ok ms =>
      simp only [GetModels, hg] at hc
      have hc' : c = RemoteCall.getRegisteredModels := by simpa using hc
      subst hc'
      rfl
  · intro c hc
    cases hg : env.GetRegisteredModels with
    | error e =>
      simp only [GetModelImages, hg] at hc
      have hc' : c = RemoteCall.getRegisteredModels := by simpa using hc
      subst hc'
      rfl
    | ok ms =>
      have hcalls := (mloop_master env ms).1
      rcases hml : getModelImagesForModels env ms with ⟨r, tr⟩
      rw [hml] at hcalls
      simp only [GetModelImages, hg, hml] at hc
      rcases List.mem_cons.mp hc with rfl | hc'
      · rfl
      · exact versionWrite_none_of_getImagesCall c (hcalls c hc')
  · intro mid mv2 ns kc p c hc
    exact buildModelImage_no_versionWrite env mid mv2 ns kc p c hc
  · intro mn mv2 ns kc ps c hc
    exact createPipelineRun_no_versionWrite env mn mv2 ns kc ps c hc

theorem C9_edgeCompatible_always_set_witness :
    lookupMeta
      [("s3SecretName", MetadataValue.str "s3cred"),
       ("testDataConfigMapName", MetadataValue.str "testdata"),
       ("edgeCompatible", MetadataValue.str "true")] "edgeCompatible" =
      some (.str "true") :=
  (C9_edgeCompatible_always_set envCreatePath).2.1 "m1" "1.0" (some pParams)
    (RemoteCall.createModelVersion "m1" "1.0"
      [("s3SecretName", MetadataValue.str "s3cred"),
       ("testDataConfigMapName", MetadataValue.str "testdata"),
       ("edgeCompatible", MetadataValue.str "true")])
    (by decide)
    [("s3SecretName", MetadataValue.str "s3cred"),
     ("testDataConfigMapName", MetadataValue.str "testdata"),
     ("edgeCompatible", MetadataValue.str "true")]
    rfl

end EdgeClient

namespace EdgeClient

theorem mem_update_of_mem_ensureVersion (env : Env) (i vn : String) (p : Option ParamMap)
    (hval : ¬(i = "" ∨ vn = "")) (m : RegisteredModel)
    (hm : env.GetRegisteredModelByID i = .ok m) (c : RemoteCall)
    (hc : c ∈ (ensureVersionIsInModelRegistry env i vn p).2) :
    c ∈ (UpdateModelImage env i vn p).2 := by
  rcases hev : ensureVersionIsInModelRegistry env i vn p with ⟨rv, vtr⟩
  rw [hev] at hc
  simp only [UpdateModelImage, if_neg hval, ensureResourcesAreInModelRegistry, hm, hev]
  cases rv with
  | err e => exact List.mem_cons_of_mem _ hc
  | panicked => exact List.mem_cons_of_mem _ hc
  | ok vp =>
    obtain ⟨v, outP⟩ := vp
    rcases hea : ensureArtifactIsInModelRegistry env v.id m.name m.description
        "ContainerImage" "" with ⟨ra, atr⟩
    simp only [hea]
    cases ra with
    | err e2 =>
      show c ∈ RemoteCall.getRegisteredModelByID i :: (vtr ++ atr)
      exact List.mem_cons_of_mem _ (List.mem_append_left _ hc)
    | panicked =>
      show c ∈ RemoteCall.getRegisteredModelByID i :: (vtr ++ atr)
      exact List.mem_cons_of_mem _ (List.mem_append_left _ hc)
    | ok u =>
      show c ∈ RemoteCall.getRegisteredModelByID i :: (vtr ++ atr)
      exact List.mem_cons_of_mem _ (List.mem_append_left _ hc)

theorem create_mem_ensureVersion_of_mem_update (env : Env) (i vn : String)
    (p : Option ParamMap) (hval : ¬(i = "" ∨ vn = "")) (m : RegisteredModel)
    (hm : env.GetRegisteredModelByID i = .ok m) (i2 n2 : String) (md2 : MetaMap)
    (hc : RemoteCall.createModelVersion i2 n2 md2 ∈ (UpdateModelImage env i vn p).2) :
    RemoteCall.createModelVersion i2 n2 md2 ∈
      (ensureVersionIsInModelRegistry env i vn p).2 := by
  rcases hev : ensureVersionIsInModelRegistry env i vn p with ⟨rv, vtr⟩
  cases rv with
  | err e =>
    have hsplit : (UpdateModelImage env i vn p).2 =
        RemoteCall.getRegisteredModelByID i :: vtr := by
      simp only [UpdateModelImage, if_neg hval, ensureResourcesAreInModelRegistry, hm, hev]
    rw [hsplit] at hc
    rcases List.mem_cons.mp hc with heq | hmem
    · simp at heq
    · exact hmem
  | panicked =>
    have hsplit : (UpdateModelImage env i vn p).2 =
        RemoteCall.getRegisteredModelByID i :: vtr := by
      simp only [UpdateModelImage, if_neg hval, ensureResourcesAreInModelRegistry, hm, hev]
    rw [hsplit] at hc
    rcases List.mem_cons.mp hc with heq | hmem
    · simp at heq
    · exact hmem
  | ok vp =>
    obtain ⟨v, outP⟩ := vp
    have hac := (ensureArtifact_master env v.id m.name m.description "ContainerImage" "").1
    rcases hea : ensureArtifactIsInModelRegistry env v.id m.name m.description
        "ContainerImage" "" with ⟨ra, atr⟩
    rw [hea] at hac
    have hsplit : (UpdateModelImage env i vn p).2 =
        RemoteCall.getRegisteredModelByID i :: (vtr ++ atr) := by
      simp only [UpdateModelImage, if_neg hval, ensureResourcesAreInModelRegistry, hm,
        hev, hea]
      cases ra <;> rfl
    rw [hsplit] at hc
    rcases List.mem_cons.mp hc with heq | hmem
    · simp at heq
    · rcases List.mem_append.mp hmem with h1 | h2
      · exact h1
      · have := hac _ h2
        simp [isArtifactEnsureCall] at this

/-- C1: through `UpdateModelImage` (with non-empty registered model ID and
version name, and the model fetch succeeding), the sentinel
find-model-version error decides create-vs-update: (a) if the version lookup
fails with the sentinel and parameters are given, a create call is issued with
the converted parameters; (b) if the lookup succeeds and parameters are given,
an update call is issued and no create call; (c) if the lookup fails with the
sentinel and parameters are nil, an error is returned and no create call is
issued; (d) if the lookup fails with a non-sentinel error, the wrapped error
is returned and no create call is issued. -/
theorem C1_sentinel_create_vs_update (env : Env) (i vn : String)
    (hid : i ≠ "") (hvn : vn ≠ "") (m : RegisteredModel)
    (hm : env.GetRegisteredModelByID i = .ok m) :
    (∀ e p md, env.FindModelVersion i vn = .error e →
      errorsIs e "ErrFindModelVersion" = true →
      ToMetadataValueMap (setParam p "edgeCompatible" (.str "true")) = .ok md →
      RemoteCall.createModelVersion i vn md ∈ (UpdateModelImage env i vn (some p)).2) ∧
    (∀ v0 p md, env.FindModelVersion i vn = .ok v0 →
      ToMetadataValueMap (setParam p "edgeCompatible" (.str "true")) = .ok md →
      RemoteCall.updateModelVersion v0.id md ∈ (UpdateModelImage env i vn (some p)).2 ∧
      ∀ i2 n2 md2,
        RemoteCall.createModelVersion i2 n2 md2 ∉ (UpdateModelImage env i vn (some p)).2) ∧
    (∀ e, env.FindModelVersion i vn = .error e →
      errorsIs e "ErrFindModelVersion" = true →
      (UpdateModelImage env i vn none).1 =
        .err (.wrap "failed to ensure resources are in model registry"
          (.msg "model version not found and no parameters provided")) ∧
      ∀ i2 n2 md2,
        RemoteCall.createModelVersion i2 n2 md2 ∉ (UpdateModelImage env i vn none).2) ∧
    (∀ e p, env.FindModelVersion i vn = .error e →
      errorsIs e "ErrFindModelVersion" = false →
      (UpdateModelImage env i vn p).1 =
        .err (.wrap "failed to ensure resources are in model registry"
          (.wrap "failed to ensure version is in model registry" e)) ∧
      ∀ i2 n2 md2,
        RemoteCall.createModelVersion i2 n2 md2 ∉ (UpdateModelImage env i vn p).2) := by
  have hval : ¬(i = "" ∨ vn = "") := fun h => h.elim hid hvn
  refine ⟨?_, ?_, ?_, ?_⟩
  · intro e p md he hs hmd
    refine mem_update_of_mem_ensureVersion env i vn (some p) hval m hm _ ?_
    cases hcr : env.CreateModelVersion i vn md with
    | error e3 =>
      simp only [ensureVersionIsInModelRegistry, he, hs, if_true, hmd, hcr]
      simp
    | ok v =>
      simp only [ensureVersionIsInModelRegistry, he, hs, if_true, hmd, hcr,
        ensureVersionFinish_trace]
      simp
  · intro v0 p md hfo hmd
    constructor
    · refine mem_update_of_mem_ensureVersion env i vn (some p) hval m hm _ ?_
      cases hu : env.UpdateModelVersion v0.id md with
      | error e3 =>
        simp only [ensureVersionIsInModelRegistry, hfo, hmd, hu]
        simp
      | ok v =>
        simp only [ensureVersionIsInModelRegistry, hfo, hmd, hu, ensureVersionFinish_trace]
        simp
    · intro i2 n2 md2 hmem
      have hin := create_mem_ensureVersion_of_mem_update env i vn (some p) hval m hm
        i2 n2 md2 hmem
      cases hu : env.UpdateModelVersion v0.id md with
      | error e3 =>
        simp only [ensureVersionIsInModelRegistry, hfo, hmd, hu] at hin
        simp at hin
      | ok v =>
        simp only [ensureVersionIsInModelRegistry, hfo, hmd, hu,
          ensureVersionFinish_trace] at hin
        simp at hin
  · intro e he hs
    constructor
    · simp only [UpdateModelImage, if_neg hval, ensureResourcesAreInModelRegistry, hm,
        ensureVersionIsInModelRegistry, he, hs, if_true]
    · intro i2 n2 md2 hmem
      have hin := create_mem_ensureVersion_of_mem_update env i vn none hval m hm
        i2 n2 md2 hmem
      simp only [ensureVersionIsInModelRegistry, he, hs, if_true] at hin
      simp at hin
  · intro e p he hs
    constructor
    · simp only [UpdateModelImage, if_neg hval, ensureResourcesAreInModelRegistry, hm,
        ensureVersionIsInModelRegistry, he, hs, Bool.false_eq_true, if_false]
    · intro i2 n2 md2 hmem
      have hin := create_mem_ensureVersion_of_mem_update env i vn p hval m hm
        i2 n2 md2 hmem
      simp only [ensureVersionIsInModelRegistry, he, hs, Bool.false_eq_true,
        if_false] at hin
      simp at hin

end EdgeClient

namespace EdgeClient

theorem C1_sentinel_create_vs_update_witness :
    RemoteCall.createModelVersion "m1" "1.0"
      [("s3SecretName", MetadataValue.str "s3cred"),
       ("testDataConfigMapName", MetadataValue.str "testdata"),
       ("edgeCompatible", MetadataValue.str "true")] ∈
      (UpdateModelImage envCreatePath "m1" "1.0" (some pParams)).2 :=
  (C1_sentinel_create_vs_update envCreatePath "m1" "1.0" (by decide) (by decide)
      rm1 rfl).1
    (.sentinel "ErrFindModelVersion") pParams _ rfl rfl rfl

theorem errWraps_wrap_msg_false (c1 m : String) (e : GoError) (t : String)
    (hs : errorsIs e t = true) : errWraps (.wrap c1 (.msg m)) e = false := by
  have h1 : (GoError.wrap c1 (GoError.msg m) == e) = false := by
    rw [beq_eq_false_iff_ne]
    intro h
    rw [← h] at hs
    simp [errorsIs] at hs
  have h2 : (GoError.msg m == e) = false := by
    rw [beq_eq_false_iff_ne]
    intro h
    rw [← h] at hs
    simp [errorsIs] at hs
  simp [errWraps, h1, h2]

/-- C3 counterexample: in `GetModelImages`, a versions lookup failing with
the model-not-found sentinel is actually issued and fails, yet the operation
returns a fresh message error built without `%w`: the returned error does not
wrap the underlying error and the sentinel is not detectable through it,
contradicting the claim that every remote-call failure is returned wrapped
with the sentinel detectable. -/
theorem C3_counterexample_unwrapped_sentinel :
    RemoteCall.getModelVersions "m1" ∈ (GetModelImages envModelsGone).2 ∧
    callErr envModelsGone (.getModelVersions "m1") =
      some (.sentinel "ErrModelNotFound") ∧
    (GetModelImages envModelsGone).1 =
      .err (.msg "failed to get model images: can't find model with id m1") ∧
    errWraps (.msg "failed to get model images: can't find model with id m1")
      (.sentinel "ErrModelNotFound") = false ∧
    errorsIs (.msg "failed to get model images: can't find model with id m1")
      "ErrModelNotFound" = false :=
  ⟨by decide, rfl, rfl, rfl, rfl⟩

end EdgeClient

namespace EdgeClient

/-- C3 (amended): every failure of an underlying remote call yields a nil
result and a non-nil error, and the error wraps the underlying error — so
sentinels stay detectable — with two exceptions forced by the code:
`GetModelImages`'s sentinel not-found branches return a fresh message error
that does not wrap the underlying sentinel, and a sentinel find failure on
the reconcile paths is consumed to decide create-vs-update (here,
`UpdateModelImage`'s "version not found, nil parameters" branch returns a
fresh non-wrapping error).  The conjuncts cover every remote call of every
operation: the model list, the auto-register call, the two `GetModelImages`
loops, and for the reconcile path the model fetch, version find, version
create, version update, artifact find and artifact create (the latter two
for an arbitrary parameters argument), and the pipeline-run creation both
inside `BuildModelImage` (caller-supplied and decoded parameters) and in
`CreatePipelineRun` itself. -/
theorem C3_error_wrapping_amended :
    (∀ s e t, errWraps (GoError.wrap s e) e = true ∧
      (errorsIs e t = true → errorsIs (GoError.wrap s e) t = true)) ∧
    (∀ env e, env.GetRegisteredModels = .error e →
      (GetModels env).1 = .err (.wrap "failed to get models" e)) ∧
    (∀ env n d v u p md e, n ≠ "" → d ≠ "" → v ≠ "" →
      ToMetadataValueMap (setParam p "edgeCompatible" (.str "true")) = .ok md →
      env.AutoRegisterModelVersionArtifact n d v n u "ContainerImage" "" md = .error e →
      (AddNewModelWithImage env n d v u (some p)).1 =
        .err (.wrap "failed to add model image" e)) ∧
    (∀ env c e, c ∈ (GetModelImages env).2 → callErr env c = some e →
      (giSentinel c e = false →
        (GetModelImages env).1 = .err (.wrap "failed to get model images" e)) ∧
      (giSentinel c e = true → ∃ s, (GetModelImages env).1 = .err (.msg s))) ∧
    (∀ env i vn p e, i ≠ "" → vn ≠ "" →
      env.GetRegisteredModelByID i = .error e →
      ∃ ctx, (UpdateModelImage env i vn p).1 = .err (.wrap ctx e)) ∧
    (∀ env i vn p m e, i ≠ "" → vn ≠ "" →
      env.GetRegisteredModelByID i = .ok m →
      env.FindModelVersion i vn = .error e →
      errorsIs e "ErrFindModelVersion" = false →
      (UpdateModelImage env i vn p).1 =
        .err (.wrap "failed to ensure resources are in model registry"
          (.wrap "failed to ensure version is in model registry" e))) ∧
    (∀ env i vn m e, i ≠ "" → vn ≠ "" →
      env.GetRegisteredModelByID i = .ok m →
      env.FindModelVersion i vn = .error e →
      errorsIs e "ErrFindModelVersion" = true →
      (UpdateModelImage env i vn none).1 =
        .err (.wrap "failed to ensure resources are in model registry"
          (.msg "model version not found and no parameters provided")) ∧
      errWraps (.wrap "failed to ensure resources are in model registry"
        (.msg "model version not found and no parameters provided")) e = false) ∧
    (∀ env i vn p0 md m e e3, i ≠ "" → vn ≠ "" →
      env.GetRegisteredModelByID i = .ok m →
      env.FindModelVersion i vn = .error e →
      errorsIs e "ErrFindModelVersion" = true →
      ToMetadataValueMap (setParam p0 "edgeCompatible" (.str "true")) = .ok md →
      env.CreateModelVersion i vn md = .error e3 →
      (UpdateModelImage env i vn (some p0)).1 =
        .err (.wrap "failed to ensure resources are in model registry"
          (.wrap "failed to ensure version is in model registry" e3))) ∧
    (∀ env i vn p0 md m v0 e3, i ≠ "" → vn ≠ "" →
      env.GetRegisteredModelByID i = .ok m →
      env.FindModelVersion i vn = .ok v0 →
      ToMetadataValueMap (setParam p0 "edgeCompatible" (.str "true")) = .ok md →
      env.UpdateModelVersion v0.id md = .error e3 →
      (UpdateModelImage env i vn (some p0)).1 =
        .err (.wrap "failed to ensure resources are in model registry"
          (.wrap "failed to ensure version is in model registry" e3))) ∧
    (∀ env i vn p m v0 outP vtr e, i ≠ "" → vn ≠ "" →
      env.GetRegisteredModelByID i = .ok m →
      ensureVersionIsInModelRegistry env i vn p = (.ok (v0, outP), vtr) →
      env.FindModelVersionArtifact v0.id m.name = .error e →
      errorsIs e "ErrFindArtifact" = false →
      (UpdateModelImage env i vn p).1 =
        .err (.wrap "failed to ensure resources are in model registry"
          (.wrap "failed to ensure artifact is in model registry" e))) ∧
    (∀ env i vn p m v0 outP vtr e e2, i ≠ "" → vn ≠ "" →
      env.GetRegisteredModelByID i = .ok m →
      ensureVersionIsInModelRegistry env i vn p = (.ok (v0, outP), vtr) →
      env.FindModelVersionArtifact v0.id m.name = .error e →
      errorsIs e "ErrFindArtifact" = true →
      env.CreateModelArtifact v0.id m.name m.description "" "ContainerImage" "" = .error e2 →
      (UpdateModelImage env i vn p).1 =
        .err (.wrap "failed to ensure resources are in model registry"
          (.wrap "failed to ensure artifact is in model registry" e2))) ∧
    (∀ env mid mv2 ns kc p e, mid ≠ "" → mv2 ≠ "" → ns ≠ "" → kc ≠ "" →
      env.GetRegisteredModelByID mid = .error e →
      (BuildModelImage env mid mv2 ns kc p).1 =
        .err (.wrap "failed to build model image" e)) ∧
    (∀ env mid mv2 ns kc p m e, mid ≠ "" → mv2 ≠ "" → ns ≠ "" → kc ≠ "" →
      env.GetRegisteredModelByID mid = .ok m →
      env.FindModelVersion mid mv2 = .error e →
      (BuildModelImage env mid mv2 ns kc p).1 =
        .err (.wrap "failed to build model image" e)) ∧
    (∀ env mid mv2 ns kc ps s3 tdc prms m v e,
      mid ≠ "" → mv2 ≠ "" → ns ≠ "" → kc ≠ "" →
      env.GetRegisteredModelByID mid = .ok m →
      env.FindModelVersion mid mv2 = .ok v →
      lookupParam ps "s3SecretName" = some (.str s3) →
      lookupParam ps "testDataConfigMapName" = some (.str tdc) →
      toTektonParams m.name mv2 ps = .ok prms →
      env.TektonCreate ns (newPipelineRunObject m.name ns prms s3 tdc) kc = .error e →
      (BuildModelImage env mid mv2 ns kc (some ps)).1 =
        .err (.wrap "failed to create pipeline run" e)) ∧
    (∀ env mid mv2 ns kc ps s3 tdc prms m v e,
      mid ≠ "" → mv2 ≠ "" → ns ≠ "" → kc ≠ "" →
      env.GetRegisteredModelByID mid = .ok m →
      env.FindModelVersion mid mv2 = .ok v →
      FromMetadataValueMap v.customProperties = .ok ps →
      lookupParam ps "s3SecretName" = some (.str s3) →
      lookupParam ps "testDataConfigMapName" = some (.str tdc) →
      toTektonParams m.name mv2 ps = .ok prms →
      env.TektonCreate ns (newPipelineRunObject m.name ns prms s3 tdc) kc = .error e →
      (BuildModelImage env mid mv2 ns kc none).1 =
        .err (.wrap "failed to create pipeline run" e)) ∧
    (∀ env mn mv2 ns kc parameters s3 tdc ps e,
      lookupParam parameters "s3SecretName" = some (.str s3) →
      lookupParam parameters "testDataConfigMapName" = some (.str tdc) →
      toTektonParams mn mv2 parameters = .ok ps →
      env.TektonCreate ns (newPipelineRunObject mn ns ps s3 tdc) kc = .error e →
      (CreatePipelineRun env mn mv2 ns kc parameters).1 =
        .err (.wrap "failed to create pipeline run" e)) := by
  refine ⟨?_, ?_, ?_, ?_, ?_, ?_, ?_, ?_, ?_, ?_, ?_, ?_, ?_, ?_, ?_, ?_⟩
  · intro s e t
    exact ⟨errWraps_wrap_self s e, fun h => by rw [errorsIs_wrap]; exact h⟩
  · intro env e hg
    simp only [GetModels, hg]
  · intro env n d v u p md e hn hd hv hmd har
    have hval : ¬(n = "" ∨ d = "" ∨ v = "") :=
      fun h => h.elim hn (fun h' => h'.elim hd hv)
    simp only [AddNewModelWithImage, if_neg hval, hmd, har]
  · intro env c e hc he
    cases hg : env.GetRegisteredModels with
    | error e0 =>
      simp only [GetModelImages, hg] at hc
      have hc' : c = RemoteCall.getRegisteredModels := by simpa using hc
      subst hc'
      simp only [callErr, hg] at he
      cases he
      refine ⟨fun _ => ?_, fun hgs => ?_⟩
      · simp only [GetModelImages, hg]
      · simp [giSentinel] at hgs
    | ok ms =>
      have hml3 := (mloop_master env ms).2.2
      rcases hml : getModelImagesForModels env ms with ⟨r, tr⟩
      rw [hml] at hml3
      simp only [GetModelImages, hg, hml] at hc ⊢
      rcases List.mem_cons.mp hc with rfl | hc'
      · simp only [callErr, hg] at he
        cases he
      · exact hml3 c hc' e he
  · intro env i vn p e hi hvn hg
    have hval : ¬(i = "" ∨ vn = "") := fun h => h.elim hi hvn
    cases hs : errorsIs e "ErrModelNotFound" with
    | true =>
      refine ⟨"model not found.", ?_⟩
      simp only [UpdateModelImage, if_neg hval, ensureResourcesAreInModelRegistry, hg,
        hs, if_true]
    | false =>
      refine ⟨"failed to ensure resources are in model registry", ?_⟩
      simp only [UpdateModelImage, if_neg hval, ensureResourcesAreInModelRegistry, hg,
        hs, Bool.false_eq_true, if_false]
  · intro env i vn p m e hi hvn hg hf hs
    have hval : ¬(i = "" ∨ vn = "") := fun h => h.elim hi hvn
    simp only [UpdateModelImage, if_neg hval, ensureResourcesAreInModelRegistry, hg,
      ensureVersionIsInModelRegistry, hf, hs, Bool.false_eq_true, if_false]
  · intro env i vn m e hi hvn hg hf hs
    have hval : ¬(i = "" ∨ vn = "") := fun h => h.elim hi hvn
    constructor
    · simp only [UpdateModelImage, if_neg hval, ensureResourcesAreInModelRegistry, hg,
        ensureVersionIsInModelRegistry, hf, hs, if_true]
    · exact errWraps_wrap_msg_false _ _ e "ErrFindModelVersion" hs
  · intro env i vn p0 md m e e3 hi hvn hg hf hs hmd hcr
    have hval : ¬(i = "" ∨ vn = "") := fun h => h.elim hi hvn
    simp only [UpdateModelImage, if_neg hval, ensureResourcesAreInModelRegistry, hg,
      ensureVersionIsInModelRegistry, hf, hs, if_true, hmd, hcr]
  · intro env i vn p0 md m v0 e3 hi hvn hg hf hmd hu
    have hval : ¬(i = "" ∨ vn = "") := fun h => h.elim hi hvn
    simp only [UpdateModelImage, if_neg hval, ensureResourcesAreInModelRegistry, hg,
      ensureVersionIsInModelRegistry, hf, hmd, hu]
  · intro env i vn p m v0 outP vtr e hi hvn hg hev hfa hs
    have hval : ¬(i = "" ∨ vn = "") := fun h => h.elim hi hvn
    simp only [UpdateModelImage, if_neg hval, ensureResourcesAreInModelRegistry, hg, hev,
      ensureArtifactIsInModelRegistry, hfa, hs, Bool.false_eq_true, if_false]
  · intro env i vn p m v0 outP vtr e e2 hi hvn hg hev hfa hs hca
    have hval : ¬(i = "" ∨ vn = "") := fun h => h.elim hi hvn
    simp only [UpdateModelImage, if_neg hval, ensureResourcesAreInModelRegistry, hg, hev,
      ensureArtifactIsInModelRegistry, hfa, hs, if_true, hca]
  · intro env mid mv2 ns kc p e h1 h2 h3 h4 hg
    have hval : ¬(mid = "" ∨ mv2 = "" ∨ ns = "" ∨ kc = "") := by
      rintro (h | h | h | h)
      · exact h1 h
      · exact h2 h
      · exact h3 h
      · exact h4 h
    simp only [BuildModelImage, if_neg hval, hg]
  · intro env mid mv2 ns kc p m e h1 h2 h3 h4 hg hf
    have hval : ¬(mid = "" ∨ mv2 = "" ∨ ns = "" ∨ kc = "") := by
      rintro (h | h | h | h)
      · exact h1 h
      · exact h2 h
      · exact h3 h
      · exact h4 h
    simp only [BuildModelImage, if_neg hval, hg, hf]
  · intro env mid mv2 ns kc ps s3 tdc prms m v e h1 h2 h3 h4 hg hf hl1 hl2 htp htc
    have hval : ¬(mid = "" ∨ mv2 = "" ∨ ns = "" ∨ kc = "") := by
      rintro (h | h | h | h)
      · exact h1 h
      · exact h2 h
      · exact h3 h
      · exact h4 h
    have hcpr : (CreatePipelineRun env m.name mv2 ns kc ps).1 =
        .err (.wrap "failed to create pipeline run" e) := by
      simp only [CreatePipelineRun, hl1, hl2, htp, htc]
    rcases hc : CreatePipelineRun env m.name mv2 ns kc ps with ⟨r, tr⟩
    rw [hc] at hcpr
    simp only [BuildModelImage, if_neg hval, hg, hf, hc, withTrace]
    exact hcpr
  · intro env mid mv2 ns kc ps s3 tdc prms m v e h1 h2 h3 h4 hg hf hfm hl1 hl2 htp htc
    have hval : ¬(mid = "" ∨ mv2 = "" ∨ ns = "" ∨ kc = "") := by
      rintro (h | h | h | h)
      · exact h1 h
      · exact h2 h
      · exact h3 h
      · exact h4 h
    have hcpr : (CreatePipelineRun env m.name mv2 ns kc ps).1 =
        .err (.wrap "failed to create pipeline run" e) := by
      simp only [CreatePipelineRun, hl1, hl2, htp, htc]
    rcases hc : CreatePipelineRun env m.name mv2 ns kc ps with ⟨r, tr⟩
    rw [hc] at hcpr
    simp only [BuildModelImage, if_neg hval, hg, hf, hfm, hc, withTrace]
    exact hcpr
  · intro env mn mv2 ns kc parameters s3 tdc ps e hl1 hl2 htp htc
    simp only [CreatePipelineRun, hl1, hl2, htp, htc]

end EdgeClient

namespace EdgeClient

theorem C3_error_wrapping_amended_witness :
    (GetModels env0).1 = .err (.wrap "failed to get models" (.msg "remote unavailable")) ∧
    ((UpdateModelImage envVersionMissing "m1" "1.0" none).1 =
      .err (.wrap "failed to ensure resources are in model registry"
        (.msg "model version not found and no parameters provided")) ∧
     errWraps (.wrap "failed to ensure resources are in model registry"
        (.msg "model version not found and no parameters provided"))
       (.sentinel "ErrFindModelVersion") = false) ∧
    (UpdateModelImage envTektonDown "m1" "1.0" (some pParams)).1 =
      .err (.wrap "failed to ensure resources are in model registry"
        (.wrap "failed to ensure version is in model registry"
          (.msg "remote unavailable"))) ∧
    (BuildModelImage env0 "m1" "1.0" "edge-ns" "kc" none).1 =
      .err (.wrap "failed to build model image" (.msg "remote unavailable")) ∧
    (BuildModelImage envTektonDown "m1" "1.0" "edge-ns" "kc" (some pParams)).1 =
      .err (.wrap "failed to create pipeline run" (.msg "remote unavailable")) ∧
    (CreatePipelineRun envTektonDown "model-one" "1.0" "edge-ns" "kc" pParams).1 =
      .err (.wrap "failed to create pipeline run" (.msg "remote unavailable")) :=
  ⟨C3_error_wrapping_amended.2.1 env0 (.msg "remote unavailable") rfl,
   C3_error_wrapping_amended.2.2.2.2.2.2.1 envVersionMissing "m1" "1.0" rm1
     (.sentinel "ErrFindModelVersion") (by decide) (by decide) rfl rfl rfl,
   C3_error_wrapping_amended.2.2.2.2.2.2.2.2.1 envTektonDown "m1" "1.0" pParams _
     rm1 mv1 (.msg "remote unavailable") (by decide) (by decide) rfl rfl rfl rfl,
   C3_error_wrapping_amended.2.2.2.2.2.2.2.2.2.2.2.1 env0 "m1" "1.0" "edge-ns" "kc"
     none (.msg "remote unavailable") (by decide) (by decide) (by decide) (by decide) rfl,
   C3_error_wrapping_amended.2.2.2.2.2.2.2.2.2.2.2.2.2.1 envTektonDown "m1" "1.0"
     "edge-ns" "kc" pParams "s3cred" "testdata" _ rm1 mv1 (.msg "remote unavailable")
     (by decide) (by decide) (by decide) (by decide) rfl rfl rfl rfl rfl rfl,
   C3_error_wrapping_amended.2.2.2.2.2.2.2.2.2.2.2.2.2.2.2 envTektonDown "model-one"
     "1.0" "edge-ns" "kc" pParams "s3cred" "testdata" _ (.msg "remote unavailable")
     rfl rfl rfl rfl⟩

end EdgeClient

namespace EdgeClient

theorem createPipelineRun_trace_shape (env : Env) (mn mv2 ns kc : String)
    (ps : ParamMap) :
    (CreatePipelineRun env mn mv2 ns kc ps).2 = [] ∨
    ∃ pr, (CreatePipelineRun env mn mv2 ns kc ps).2 =
      [RemoteCall.tektonCreate ns pr kc] := by
  cases hl1 : lookupParam ps "s3SecretName" with
  | none => left; simp only [CreatePipelineRun, hl1]
  | some s3v =>
    cases s3v with
    | str s3 =>
      cases hl2 : lookupParam ps "testDataConfigMapName" with
      | none => left; simp only [CreatePipelineRun, hl1, hl2]
      | some tdv =>
        cases tdv with
        | str tdc =>
          cases htp : toTektonParams mn mv2 ps with
          | error e => left; simp only [CreatePipelineRun, hl1, hl2, htp]
          | ok prms =>
            cases htc : env.TektonCreate ns (newPipelineRunObject mn ns prms s3 tdc) kc with
            | error e =>
              right
              exact ⟨newPipelineRunObject mn ns prms s3 tdc, by
                simp only [CreatePipelineRun, hl1, hl2, htp, htc]⟩
            | ok created =>
              right
              exact ⟨newPipelineRunObject mn ns prms s3 tdc, by
                simp only [CreatePipelineRun, hl1, hl2, htp, htc]⟩
        | ilist xs => left; simp only [CreatePipelineRun, hl1, hl2]
        | slist xs => left; simp only [CreatePipelineRun, hl1, hl2]
        | other tag => left; simp only [CreatePipelineRun, hl1, hl2]
    | ilist xs => left; simp only [CreatePipelineRun, hl1]
    | slist xs => left; simp only [CreatePipelineRun, hl1]
    | other tag => left; simp only [CreatePipelineRun, hl1]

/-- C6 counterexample: in `UpdateModelImage`, after the version lookup fails
with the find-model-version sentinel, two further remote calls are made (the
version creation and the artifact lookup), contradicting the claim that after
a remote call fails no further remote calls are made. -/
theorem C6_counterexample_calls_after_failure :
    (UpdateModelImage envCreatePath "m1" "1.0" (some pParams)).2 =
      [.getRegisteredModelByID "m1",
       .findModelVersion "m1" "1.0",
       .createModelVersion "m1" "1.0"
         [("s3SecretName", MetadataValue.str "s3cred"),
          ("testDataConfigMapName", MetadataValue.str "testdata"),
          ("edgeCompatible", MetadataValue.str "true")],
       .findModelVersionArtifact "v-id-1" "model-one"] ∧
    callErr envCreatePath (.findModelVersion "m1" "1.0") =
      some (.sentinel "ErrFindModelVersion") :=
  ⟨rfl, rfl⟩

/-- C6 (amended): for every public operation, every failing remote call is
attempted exactly once (a failing call is never re-issued) and — unless the
failure is one of the sentinel "not found" conditions, which the reconcile
paths consume to branch to the corresponding create call — it is the last
remote call made, so no further calls follow it; the reconcile and build
operations issue only their fixed forward repertoire of calls (no
compensating or undo call exists). -/
theorem C6_trace_discipline_amended :
    (∀ env, TraceDiscipline env (GetModels env).2) ∧
    (∀ env n d v u p, TraceDiscipline env (AddNewModelWithImage env n d v u p).2) ∧
    (∀ env, TraceDiscipline env (GetModelImages env).2) ∧
    (∀ env i vn p, TraceDiscipline env (UpdateModelImage env i vn p).2 ∧
      ∀ c ∈ (UpdateModelImage env i vn p).2, isModelRegistryReconcileCall c = true) ∧
    (∀ env mid mv2 ns kc p,
      TraceDiscipline env (BuildModelImage env mid mv2 ns kc p).2 ∧
      ∀ c ∈ (BuildModelImage env mid mv2 ns kc p).2, isBuildImageCall c = true) ∧
    (∀ env mn mv2 ns kc ps, TraceDiscipline env (CreatePipelineRun env mn mv2 ns kc ps).2) := by
  have hcpr : ∀ env mn mv2 ns kc ps,
      TraceDiscipline env (CreatePipelineRun env mn mv2 ns kc ps).2 := by
    intro env mn mv2 ns kc ps
    rcases createPipelineRun_trace_shape env mn mv2 ns kc ps with h | ⟨pr, h⟩
    · rw [h]; exact traceDiscipline_nil env
    · rw [h]; exact traceDiscipline_singleton env _
  refine ⟨?_, ?_, ?_, ?_, ?_, hcpr⟩
  · intro env
    cases hg : env.GetRegisteredModels with
    | error e =>
      simp only [GetModels, hg]
      exact traceDiscipline_singleton env _
    | ok ms =>
      simp only [GetModels, hg]
      exact traceDiscipline_singleton env _
  · intro env n d v u p
    by_cases hval : (n = "" ∨ d = "" ∨ v = "")
    · simp only [AddNewModelWithImage, if_pos hval]
      exact traceDiscipline_nil env
    · cases p with
      | none =>
        simp only [AddNewModelWithImage, if_neg hval]
        exact traceDiscipline_nil env
      | some p0 =>
        cases hm : ToMetadataValueMap (setParam p0 "edgeCompatible" (.str "true")) with
        | error e =>
          simp only [AddNewModelWithImage, if_neg hval, hm]
          exact traceDiscipline_nil env
        | ok md =>
          cases har : env.AutoRegisterModelVersionArtifact n d v n u "ContainerImage" "" md with
          | error e =>
            simp only [AddNewModelWithImage, if_neg hval, hm, har]
            exact traceDiscipline_singleton env _
          | ok trip =>
            obtain ⟨m2, v2, a2⟩ := trip
            simp only [AddNewModelWithImage, if_neg hval, hm, har]
            exact traceDiscipline_singleton env _
  · intro env
    cases hg : env.GetRegisteredModels with
    | error e =>
      simp only [GetModelImages, hg]
      exact traceDiscipline_singleton env _
    | ok ms =>
      have hd := (mloop_master env ms).2.1
      have hgok : callErr env RemoteCall.getRegisteredModels = none := by
        simp [callErr, hg]
      rcases hml : getModelImagesForModels env ms with ⟨r, tr⟩
      rw [hml] at hd
      simp only [GetModelImages, hg, hml]
      exact traceDiscipline_cons_ok env _ _ hgok hd
  · intro env i vn p
    exact ⟨(updateModelImage_master env i vn p).2, (updateModelImage_master env i vn p).1⟩
  · intro env mid mv2 ns kc p
    by_cases hval : (mid = "" ∨ mv2 = "" ∨ ns = "" ∨ kc = "")
    · simp only [BuildModelImage, if_pos hval]
      exact ⟨traceDiscipline_nil env, fun c hc => absurd hc (List.not_mem_nil c)⟩
    · cases hm : env.GetRegisteredModelByID mid with
      | error e =>
        simp only [BuildModelImage, if_neg hval, hm]
        exact ⟨traceDiscipline_singleton env _, mem_singleton_prop _ rfl⟩
      | ok m =>
        have hmok : callErr env (.getRegisteredModelByID mid) = none := by
          simp [callErr, hm]
        cases hv : env.FindModelVersion mid mv2 with
        | error e =>
          simp only [BuildModelImage, if_neg hval, hm, hv]
          refine ⟨traceDiscipline_cons_ok env _ _ hmok (traceDiscipline_singleton env _),
            mem_pair_prop _ _ rfl rfl⟩
        | ok v =>
          have hvok : callErr env (.findModelVersion mid mv2) = none := by
            simp [callErr, hv]
          have hpre : AllOk env [RemoteCall.getRegisteredModelByID mid,
              RemoteCall.findModelVersion mid mv2] := by
            intro c hc
            rcases (by simpa using hc : c = RemoteCall.getRegisteredModelByID mid ∨
                c = RemoteCall.findModelVersion mid mv2) with rfl | rfl
            · exact hmok
            · exact hvok
          cases p with
          | some ps =>
            have hdp := hcpr env m.name mv2 ns kc ps
            have hshape := createPipelineRun_trace_shape env m.name mv2 ns kc ps
            rcases hcp : CreatePipelineRun env m.name mv2 ns kc ps with ⟨r, tr⟩
            rw [hcp] at hdp hshape
            simp only [BuildModelImage, if_neg hval, hm, hv, hcp, withTrace]
            refine ⟨allOk_traceDiscipline_append env _ _ hpre hdp, ?_⟩
            intro c hc
            rcases List.mem_append.mp hc with h1 | h2
            · rcases (by simpa using h1 : c = RemoteCall.getRegisteredModelByID mid ∨
                  c = RemoteCall.findModelVersion mid mv2) with rfl | rfl
              · rfl
              · rfl
            · rcases hshape with h | ⟨pr, h⟩
              · rw [show tr = [] from h] at h2; cases h2
              · rw [show tr = [RemoteCall.tektonCreate ns pr kc] from h] at h2
                have : c = RemoteCall.tektonCreate ns pr kc := by simpa using h2
                subst this
                rfl
          | none =>
            cases hfm : FromMetadataValueMap v.customProperties with
            | error e =>
              simp only [BuildModelImage, if_neg hval, hm, hv, hfm]
              refine ⟨traceDiscipline_cons_ok env _ _ hmok
                (traceDiscipline_singleton env _), mem_pair_prop _ _ rfl rfl⟩
            | ok ps =>
              have hdp := hcpr env m.name mv2 ns kc ps
              have hshape := createPipelineRun_trace_shape env m.name mv2 ns kc ps
              rcases hcp : CreatePipelineRun env m.name mv2 ns kc ps with ⟨r, tr⟩
              rw [hcp] at hdp hshape
              simp only [BuildModelImage, if_neg hval, hm, hv, hfm, hcp, withTrace]
              refine ⟨allOk_traceDiscipline_append env _ _ hpre hdp, ?_⟩
              intro c hc
              rcases List.mem_append.mp hc with h1 | h2
              · rcases (by simpa using h1 : c = RemoteCall.getRegisteredModelByID mid ∨
                    c = RemoteCall.findModelVersion mid mv2) with rfl | rfl
                · rfl
                · rfl
              · rcases hshape with h | ⟨pr, h⟩
                · rw [show tr = [] from h] at h2; cases h2
                · rw [show tr = [RemoteCall.tektonCreate ns pr kc] from h] at h2
                  have : c = RemoteCall.tektonCreate ns pr kc := by simpa using h2
                  subst this
                  rfl

theorem C6_trace_discipline_amended_witness :
    countCall (.findModelVersion "m1" "1.0")
      (UpdateModelImage envCreatePath "m1" "1.0" (some pParams)).2 = 1 ∧
    (isSentinelErr (.sentinel "ErrFindModelVersion") = true ∨
      lastCall (UpdateModelImage envCreatePath "m1" "1.0" (some pParams)).2 =
        some (.findModelVersion "m1" "1.0")) :=
  (C6_trace_discipline_amended.2.2.2.1 envCreatePath "m1" "1.0" (some pParams)).1
    (.findModelVersion "m1" "1.0") (by decide) (.sentinel "ErrFindModelVersion") rfl

end EdgeClient
